import Mathlib

/-!
Session lifecycle and deferred-operation queue of `Bot.js`, and the request URL
of `Request.js`.

A shallow embedding of `src/classes/Bot.js`: the bot object is a record, every
method is a function on that record, and every call the bot makes on a
collaborator (the community client, the trade-offer manager, the store, the
friends facade, the logger, a caller-supplied callback) or on its own outward
event surface is appended to a trace kept in the record.

JavaScript values are the inductive `Val`.  Numbers are integers plus `NaN`;
objects and functions are opaque references.  Arithmetic and the conversion of
a number to text are computed for integers of magnitude at most 2^53, where
JavaScript numbers are exact; beyond that, and for the source text of a
function, the result of `+` is kept as the unevaluated `sum`.

The own-property tests of the source are method calls `obj.hasOwnProperty(k)`
on the object itself.  For `delayedTasks`, for the `details` of the constructor
and for the `options` of a request the model follows the method lookup, so that
a property named `hasOwnProperty` hides the built-in method and the call
throws; `getSetting` and `deleteSetting` are given for a `settings` object
without such a property.

What lies outside `Bot.js` is not interpreted.  The subscribers of the bot's own
events, the caller-supplied callbacks and the collaborators are external: a
call on them is recorded in the trace and is taken to return without calling
back into the bot.  The asynchronous replies of the collaborators (the
callbacks of `editProfile` and of `TradeOfferManager.setCookies`) are functions
of their own, `editProfileCallback` and `setCookiesCallback`, which take the
reply as an argument.  The `logger` handed to the constructor is taken
to be a logger object.  Queue draining may not terminate, so the drain takes an
evaluation budget and reports `outOfFuel` when the budget is used up.
-/

namespace SteamBot

/-! ## Values -/

/-- JavaScript values that reach the bot: primitives, opaque object and
function references, the bot object itself, `Error`, `TypeError` and
`ReferenceError` objects with their message, and objects that carry an own
property named `Error` (`failure e` is such an object, with `e` the value of
that property).  A caller-supplied function `fn id` is taken to return
`undefined`.  `sum a b` is the value of the expression `a + b` where the model
does not compute it; it only arises as a result of `jsAdd`. -/
inductive Val
  | undefined
  | null
  | bool (b : Bool)
  | num (n : Int)
  | nan
  | str (s : String)
  | obj (id : Nat)
  | fn (id : Nat)
  | self
  | error (msg : String)
  | typeError (msg : String)
  | referenceError (msg : String)
  | failure (Error : Val)
  | sum (a b : Val)
  deriving DecidableEq, Repr

/-- JavaScript truthiness, as tested by `if (v)`. -/
def truthy : Val → Bool
  | .undefined => false
  | .null => false
  | .bool b => b
  | .num n => n != 0
  | .nan => false
  | .str s => s != ""
  | _ => true

/-- The test `v == undefined` (loose equality): true for `undefined` and `null` only. -/
def isNullish : Val → Bool
  | .undefined => true
  | .null => true
  | _ => false

/-- Is the integer within the range in which JavaScript numbers are exact and
print with all their digits? -/
def safe (n : Int) : Bool := n.natAbs ≤ 9007199254740992

/-- The text of an error object: its name, then `: ` and the message unless the
message is empty. -/
def errorText (name msg : String) : String :=
  if msg = "" then name else name ++ ": " ++ msg

/-- String conversion used by `+`.  Plain objects print as `[object Object]`.
The result is `none` where the model does not compute the text: the source text
of a function, a number of magnitude above 2^53, an unevaluated sum. -/
def toStr : Val → Option String
  | .undefined => some "undefined"
  | .null => some "null"
  | .bool true => some "true"
  | .bool false => some "false"
  | .num n => if safe n then some (toString n) else none
  | .nan => some "NaN"
  | .str s => some s
  | .obj _ => some "[object Object]"
  | .fn _ => none
  | .self => some "[object Object]"
  | .error msg => some (errorText "Error" msg)
  | .typeError msg => some (errorText "TypeError" msg)
  | .referenceError msg => some (errorText "ReferenceError" msg)
  | .failure _ => some "[object Object]"
  | .sum _ _ => none

/-- Is the value a string after conversion to a primitive? -/
def stringLike : Val → Bool
  | .str _ => true
  | .obj _ => true
  | .fn _ => true
  | .self => true
  | .error _ => true
  | .typeError _ => true
  | .referenceError _ => true
  | .failure _ => true
  | _ => false

/-- Numeric conversion of the remaining primitives; `none` is `NaN`. -/
def toNum : Val → Option Int
  | .null => some 0
  | .bool true => some 1
  | .bool false => some 0
  | .num n => some n
  | _ => none

/-- Is the value an unevaluated sum? -/
def unevaluated : Val → Bool
  | .sum _ _ => true
  | _ => false

/-- The JavaScript operator `+`: concatenation of the texts when an operand is
a string after conversion to a primitive, addition of the numbers otherwise.
Where a text is not computed, or a number leaves the exact range, the result is
the unevaluated `sum a b`. -/
def jsAdd (a b : Val) : Val :=
  if unevaluated a || unevaluated b then .sum a b
  else if stringLike a || stringLike b then
    match toStr a, toStr b with
    | some x, some y => .str (x ++ y)
    | _, _ => .sum a b
  else
    match toNum a, toNum b with
    | some x, some y => if safe x && safe y && safe (x + y) then .num (x + y) else .sum a b
    | _, _ => .nan

/-- The i-th positional argument of a call, `undefined` when it is missing. -/
def arg (params : List Val) (i : Nat) : Val := params.getD i .undefined

/-! ## Functions, queue entries, effects -/

/-- Functions that can be handed to `addToQueue`.  The first three are the
gated methods of `Bot.prototype`; the last three stand for caller-supplied
functions: one that throws, one that calls `this.processQueue`, one that calls
`this.addToQueue`. -/
inductive Fn
  | changeName
  | getInventory
  | getUserInventory
  | raise (e : Val)
  | processQueue (queueName : String) (callback : Val)
  | addToQueue (queueName : String) (functionV : Fn) (functionData : List Val)
  deriving DecidableEq, Repr

/-- The closure built by `wrapFunction(fn, self, params)`. -/
structure Entry where
  fn : Fn
  params : List Val
  deriving DecidableEq, Repr

/-- The thirteen listener closures attached in `loggedInAccount`, in source order. -/
inductive Handler
  | chatTyping
  | chatLoggedOn
  | chatLogOnFailed
  | chatMessage
  | sessionExpired
  | offerChanged
  | receivedOfferChanged
  | offerList
  | newOffer
  | sentOfferChanged
  | realTimeTradeConfirmationRequired
  | realTimeTradeCompleted
  | sentOfferCanceled
  deriving DecidableEq, Repr

abbrev Cookies := List String

/-- One observable action of the bot. -/
inductive Effect
  /-- The call `fn.apply(context, params)` inside a wrapped function. -/
  | apply (fn : Fn) (params : List Val)
  /-- The call `community.editProfile({name: name}, cb)`; the closure `cb` captures
  `newName` and `callbackErrorOnly`. -/
  | editProfile (community : Nat) (name newName callbackErrorOnly : Val)
  | loadInventory (manager : Nat) (args : List Val)
  | loadUserInventory (manager : Nat) (args : List Val)
  /-- The call `self.emit(event, args...)` on the outward event surface. -/
  | emit (event : String) (args : List Val)
  /-- A call of the caller-supplied function `fn id`. -/
  | call (id : Nat) (args : List Val)
  /-- The call `source.on(event, handler)`. -/
  | on (source : Nat) (event : String) (handler : Handler)
  | friendsLogin
  | friendsLogout
  | log (level : String) (args : List Val)
  | setCookies (target : Nat) (cookies : Cookies)
  /-- The call `TradeOfferManager.setCookies(cookies, cb)` with the probe closure. -/
  | setCookiesProbe (manager : Nat) (cookies : Cookies)
  /-- The call `self.Trade.setAPIAccess(v)`. -/
  | setAPIAccess (v : Val)
  deriving DecidableEq, Repr

/-- A listener registered on an underlying source instance. -/
structure Listener where
  source : Nat
  event : String
  handler : Handler
  deriving DecidableEq, Repr

/-! ## The bot object -/

/-- What the prototype chain of an object provides under the name
`hasOwnProperty`: the built-in method of `Object.prototype`, as for every
ordinary object, or another value (`undefined` for an object without
prototype). -/
inductive OwnTest
  | builtin
  | other (v : Val)
  deriving DecidableEq, Repr

/-- The `details` argument of the constructor: `undefined`, `null`, or an object
with its own properties and what it inherits under `hasOwnProperty`. -/
inductive Details
  | undefined
  | null
  | obj (props : List (String × Val)) (proto : OwnTest)
  deriving DecidableEq, Repr

/-- The bot object together with the instances it has allocated and the trace
of its observable actions.  `sessionID` and `cookies` are `none` while the
property is `undefined`; cookies are an array of strings, compared by content.  `community`, `client`, `TradeOfferManager` and
`store` hold the identity of the current instance; `nextId` is the next unused
identity; `listeners` lists every registration made on any instance, oldest
first. -/
structure Bot where
  username : Val
  password : Val
  displayName : Val
  details : Details
  settings : List (String × Val)
  loggedIn : Bool
  rateLimited : Bool
  delayedTasks : List (String × List Entry)
  sessionID : Option String
  cookies : Option Cookies
  api_access : Val
  community : Nat
  client : Nat
  TradeOfferManager : Nat
  store : Nat
  nextId : Nat
  listeners : List Listener
  trace : List Effect
  deriving DecidableEq, Repr

/-- Result of running a method: normal return, an exception propagating to the
caller (with the state at the throw), or the evaluation budget ran out. -/
inductive Outcome
  | ok (s : Bot)
  | threw (e : Val) (s : Bot)
  | outOfFuel
  deriving DecidableEq, Repr

/-- Append one effect to the trace. -/
def Bot.record (s : Bot) (e : Effect) : Bot := { s with trace := s.trace ++ [e] }

/-- The settings used when the constructor receives none (lines 37-46). -/
def defaultSettings : List (String × Val) :=
  [("api_key", .str ""), ("tradeCancelTime", .num (60 * 60 * 24)),
   ("tradePendingCancelTime", .num (60 * 60 * 24)), ("language", .str "en"),
   ("tradePollInterval", .num 5000), ("tradeCancelOfferCount", .num 30),
   ("tradeCancelOfferCountMinAge", .num (60 * 60)), ("cancelTradeOnOverflow", .bool true)]

/-- The test `typeof v != "string"`. -/
def notString : Val → Bool
  | .str _ => false
  | _ => true

/-- Own-property lookup in an object literal. -/
def getProp : List (String × Val) → String → Option Val
  | [], _ => none
  | (k, v) :: rest, name => if k = name then some v else getProp rest name

/-- The method call `obj.hasOwnProperty(name)` on an object with own properties
`own` and inherited enumerable properties `inherited`.  The method is looked up
on the object itself, so a property named `hasOwnProperty`, own or inherited,
replaces the built-in: a caller-supplied function is called and returns
`undefined`, any other value is not callable and the call throws a
`TypeError`. -/
def callHasOwn (own inherited : List (String × Val)) (proto : OwnTest) (name : String) :
    Except Val Bool :=
  let method : OwnTest :=
    match getProp own "hasOwnProperty" with
    | some v => .other v
    | none =>
      match getProp inherited "hasOwnProperty" with
      | some v => .other v
      | none => proto
  match method with
  | .builtin => .ok (getProp own name).isSome
  | .other (.fn _) => .ok false
  | .other _ => .error (.typeError "hasOwnProperty is not a function")

/-- The credential check of the constructor (lines 27-29): the two tests are
nested, and `!a || !b` does not evaluate `b` when `a` is false. -/
def Bot.validate (username password : Val) (details : Details) : Except Val Unit :=
  if notString username || notString password then
    match details with
    | .obj props proto =>
      match callHasOwn props [] proto "steamguard" with
      | .error e => .error e
      | .ok false =>
        .error (.error "Invalid username/password or missing oAuthToken/Steamguard code")
      | .ok true =>
        match callHasOwn props [] proto "oAuthToken" with
        | .error e => .error e
        | .ok false =>
          .error (.error "Invalid username/password or missing oAuthToken/Steamguard code")
        | .ok true => .ok ()
    | _ => .error (.typeError "Cannot read property 'hasOwnProperty'")
  else .ok ()

/-- The display name the constructor takes from `details` (lines 31-34);
`typeof null` is `"object"`, so `null` reaches the method call and throws. -/
def Bot.named (details : Details) : Except Val Val :=
  match details with
  | .undefined => .ok .undefined
  | .null => .error (.typeError "Cannot read property 'hasOwnProperty'")
  | .obj props proto =>
    match callHasOwn props [] proto "displayName" with
    | .error e => .error e
    | .ok true => .ok ((getProp props "displayName").getD .undefined)
    | .ok false => .ok .undefined

/-- The constructor `Bot(username, password, details, settings, logger)`.
Reading a property of `undefined` or `null` throws a `TypeError`. -/
def Bot.new (username password : Val) (details : Details)
    (settings : Option (List (String × Val))) : Except Val Bot :=
  match Bot.validate username password details with
  | .error e => .error e
  | .ok () =>
    match Bot.named details with
    | .error e => .error e
    | .ok displayName =>
      .ok { username := username, password := password, displayName := displayName,
            details := details, settings := settings.getD defaultSettings,
            loggedIn := false, rateLimited := true, delayedTasks := [],
            sessionID := none, cookies := none, api_access := .undefined,
            community := 0, client := 1, TradeOfferManager := 2, store := 3,
            nextId := 4, listeners := [], trace := [] }

/-! ## The deferred-operation queue -/

/-- Lookup in `delayedTasks`. -/
def getQueue : List (String × List Entry) → String → Option (List Entry)
  | [], _ => none
  | (k, v) :: rest, q => if k = q then some v else getQueue rest q

/-- Assignment `delayedTasks[q] = v`. -/
def setQueue : List (String × List Entry) → String → List Entry → List (String × List Entry)
  | [], q, v => [(q, v)]
  | (k, w) :: rest, q, v => if k = q then (k, v) :: rest else (k, w) :: setQueue rest q v

/-- The array stored under `delayedTasks[q]`, if any.  `delayedTasks` is itself
an array, so `length` is its own numeric property and `__proto__` is its
prototype accessor: neither ever holds a queue. -/
def Bot.queue (s : Bot) (q : String) : Option (List Entry) :=
  if q = "length" ∨ q = "__proto__" then none else getQueue s.delayedTasks q

/-- The answer of the built-in `Object.prototype.hasOwnProperty` on
`delayedTasks` for the key `q`. -/
def Bot.owns (s : Bot) (q : String) : Bool :=
  q = "length" || (s.queue q).isSome

/-- The test `self.delayedTasks.hasOwnProperty(q)` (lines 181 and 192).  The
method is looked up on `delayedTasks` itself: once a queue named
`hasOwnProperty` exists, the lookup finds that array instead of the built-in
method and the call throws a `TypeError`. -/
def Bot.hasQueue (s : Bot) (q : String) : Except Val Bool :=
  if (s.queue "hasOwnProperty").isSome then
    .error (.typeError "self.delayedTasks.hasOwnProperty is not a function")
  else .ok (s.owns q)

/-- `Bot.prototype.addToQueue` (lines 178-184).  The own-property test of line
181 comes first and may throw.  For `length` the existing own property is a
number and `push` is not a function; for `__proto__` the new array becomes the
prototype of `delayedTasks` and is never an own property. -/
def addToQueue (queueName : String) (functionV : Fn) (functionData : List Val) (s : Bot) :
    Outcome :=
  match s.hasQueue queueName with
  | .error e => .threw e s
  | .ok _ =>
    if queueName = "length" then
      .threw (.typeError "self.delayedTasks[queueName].push is not a function") s
    else if queueName = "__proto__" then .ok s
    else
      let functionVal : Entry := { fn := functionV, params := functionData }
      let tasks :=
        setQueue s.delayedTasks queueName (((s.queue queueName).getD []) ++ [functionVal])
      .ok { s with delayedTasks := tasks }

/-- `Bot.prototype.changeName` (lines 208-224). -/
def changeName (newName namePrefix callbackErrorOnly : Val) (s : Bot) : Outcome :=
  if !s.loggedIn then
    addToQueue "login" .changeName [newName, namePrefix, callbackErrorOnly] s
  else
    let namePrefix := if isNullish namePrefix then .str "" else namePrefix
    .ok (s.record (.editProfile s.community (jsAdd namePrefix newName) newName callbackErrorOnly))

/-- `Bot.prototype.getInventory` (lines 240-247). -/
def getInventory (appid contextid tradableOnly inventoryCallback : Val) (s : Bot) : Outcome :=
  if !s.loggedIn then
    addToQueue "login" .getInventory [appid, contextid, tradableOnly, inventoryCallback] s
  else
    .ok (s.record
      (.loadInventory s.TradeOfferManager [appid, contextid, tradableOnly, inventoryCallback]))

/-- `Bot.prototype.getUserInventory` (lines 257-264). -/
def getUserInventory (steamID appid contextid tradableOnly inventoryCallback : Val) (s : Bot) :
    Outcome :=
  if !s.loggedIn then
    addToQueue "login" .getUserInventory
      [steamID, appid, contextid, tradableOnly, inventoryCallback] s
  else
    .ok (s.record (.loadUserInventory s.TradeOfferManager
      [steamID, appid, contextid, tradableOnly, inventoryCallback]))

/-- Calling a value as a function: a caller-supplied function is recorded in the
trace, anything else is a `TypeError`. -/
def callVal (f : Val) (args : List Val) (s : Bot) : Outcome :=
  match f with
  | .fn id => .ok (s.record (.call id args))
  | _ => .threw (.typeError "callback is not a function") s

/-! ## Event bridge -/

/-- The listeners attached to `self.community` (lines 340-366). -/
def communityBridge : List (String × Handler) :=
  [("chatTyping", .chatTyping), ("chatLoggedOn", .chatLoggedOn),
   ("chatLogOnFailed", .chatLogOnFailed), ("chatMessage", .chatMessage),
   ("sessionExpired", .sessionExpired)]

/-- The listeners attached to `self.TradeOfferManager` (lines 367-442). -/
def managerBridge : List (String × Handler) :=
  [("sentOfferChanged", .offerChanged), ("receivedOfferChanged", .receivedOfferChanged),
   ("offerList", .offerList), ("newOffer", .newOffer),
   ("sentOfferChanged", .sentOfferChanged),
   ("realTimeTradeConfirmationRequired", .realTimeTradeConfirmationRequired),
   ("realTimeTradeCompleted", .realTimeTradeCompleted),
   ("sentOfferCanceled", .sentOfferCanceled)]

/-- The call `source.on(event, handler)`. -/
def Bot.on (s : Bot) (source : Nat) (eh : String × Handler) : Bot :=
  { s with listeners := s.listeners ++ [{ source := source, event := eh.1, handler := eh.2 }],
           trace := s.trace ++ [.on source eh.1 eh.2] }

/-- Attach every listener of a bridge table to one source, in order. -/
def attach (source : Nat) (table : List (String × Handler)) (s : Bot) : Bot :=
  table.foldl (fun s eh => s.on source eh) s

/-- Outward event name emitted by a listener closure. -/
def Handler.outward : Handler → String
  | .chatTyping => "chatTyping"
  | .chatLoggedOn => "chatLoggedOn"
  | .chatLogOnFailed => "chatLogOnFailed"
  | .chatMessage => "chatMessage"
  | .sessionExpired => "sessionExpired"
  | .offerChanged => "offerChanged"
  | .receivedOfferChanged => "receivedOfferChanged"
  | .offerList => "offerList"
  | .newOffer => "newOffer"
  | .sentOfferChanged => "sentOfferChanged"
  | .realTimeTradeConfirmationRequired => "realTimeTradeConfirmationRequired"
  | .realTimeTradeCompleted => "realTimeTradeCompleted"
  | .sentOfferCanceled => "sentOfferCanceled"

/-- Number of declared parameters a listener closure forwards. -/
def Handler.arity : Handler → Nat
  | .chatLoggedOn => 0
  | .chatLogOnFailed => 2
  | .chatMessage => 2
  | .offerChanged => 2
  | .receivedOfferChanged => 2
  | .offerList => 3
  | _ => 1

/-- Body of a listener closure.  The console echo of `chatMessage` (lines
350-352) writes to standard output only and is left out of the trace. -/
def Handler.run (h : Handler) (args : List Val) (s : Bot) : Bot :=
  let s := match h with
    | .sessionExpired =>
      s.record (.log "debug" [jsAdd (.str "Login session expired due to ") (arg args 0)])
    | _ => s
  s.record (.emit h.outward ((List.range h.arity).map (arg args)))

/-- An underlying source instance emits `event` with `args`: every listener
registered on that instance for that event runs, in registration order. -/
def sourceEmit (source : Nat) (event : String) (args : List Val) (s : Bot) : Bot :=
  (s.listeners.filter (fun l => l.source = source ∧ l.event = event)).foldl
    (fun s l => l.handler.run args s) s

/-! ## Draining -/

/-- The completion callback handed to `processQueue`: a caller-supplied value, or
the closure of lines 335-451 that captures `callbackErrorOnly`. -/
inductive Callback
  | user (f : Val)
  | loginDone (callbackErrorOnly : Val)
  deriving DecidableEq, Repr

/-- The call `callback(undefined)` at line 197. -/
def runCallback (k : Callback) (s : Bot) : Outcome :=
  match k with
  | .user f => callVal f [.undefined] s
  | .loginDone callbackErrorOnly =>
    let s := attach s.community communityBridge s
    let s := attach s.TradeOfferManager managerBridge s
    if truthy callbackErrorOnly then callVal callbackErrorOnly [.undefined] s else .ok s

mutual
/-- A wrapped function is called: `fn.apply(context, params)` (line 170). -/
def invoke : Nat → Entry → Bot → Outcome
  | 0, _, _ => .outOfFuel
  | fuel + 1, e, s =>
    let s := s.record (.apply e.fn e.params)
    match e.fn with
    | .changeName => changeName (arg e.params 0) (arg e.params 1) (arg e.params 2) s
    | .getInventory =>
      getInventory (arg e.params 0) (arg e.params 1) (arg e.params 2) (arg e.params 3) s
    | .getUserInventory =>
      getUserInventory (arg e.params 0) (arg e.params 1) (arg e.params 2) (arg e.params 3)
        (arg e.params 4) s
    | .raise v => .threw v s
    | .processQueue q f => processQueue fuel q (.user f) s
    | .addToQueue q f d => addToQueue q f d s

/-- The `while` loop of `processQueue` (lines 193-195): shift the first entry
off the queue, call it, test the length again. -/
def drainLoop : Nat → String → Bot → Outcome
  | 0, _, _ => .outOfFuel
  | fuel + 1, q, s =>
    match s.queue q with
    | some (e :: rest) =>
      match invoke fuel e { s with delayedTasks := setQueue s.delayedTasks q rest } with
      | .ok s => drainLoop fuel q s
      | o => o
    | _ => .ok s

/-- `Bot.prototype.processQueue` (lines 190-198).  The own-property test of
line 192 is made once, before the loop; when it throws, neither the loop nor the
callback runs. -/
def processQueue : Nat → String → Callback → Bot → Outcome
  | 0, _, _, _ => .outOfFuel
  | fuel + 1, q, k, s =>
    match s.hasQueue q with
    | .error e => .threw e s
    | .ok own =>
      match (if own then drainLoop fuel q s else .ok s) with
      | .ok s => runCallback k s
      | o => o
end

/-! ## Session lifecycle -/

/-- `Bot.prototype.loggedInAccount` (lines 307-452). -/
def loggedInAccount (fuel : Nat) (cookies : Option Cookies) (sessionID : Option String)
    (callbackErrorOnly : Val) (s : Bot) : Outcome :=
  let s := s.record .friendsLogin
  let s := s.record (.log "debug" [.str "Logged into %j", s.username])
  let s := if s.sessionID ≠ sessionID ∨ s.cookies ≠ cookies then
      { s with sessionID := sessionID, cookies := cookies } else s
  let s := s.record (.emit "loggedIn" [.self])
  let s := match s.cookies with
    | some c =>
      ((s.record (.setCookies s.community c)).record (.setCookies s.store c)).record
        (.setCookiesProbe s.TradeOfferManager c)
    | none => s
  let s := { s with loggedIn := true }
  processQueue fuel "login" (.loginDone callbackErrorOnly) s

/-- `Bot.prototype.logoutAccount` (lines 479-498). -/
def logoutAccount (s : Bot) : Bot :=
  let s := s.record .friendsLogout
  { s with community := s.nextId, client := s.nextId + 1, TradeOfferManager := s.nextId + 2,
           store := s.nextId + 3, nextId := s.nextId + 4, loggedIn := false }

/-! ## Replies of the collaborators -/

/-- The property read `v.Error` on a truthy value.  Only `failure` objects carry
an own property of that name; on `Error` objects and on every other value the
read gives `undefined`. -/
def getError : Val → Val
  | .failure e => e
  | _ => .undefined

/-- The test `v == "Access Denied"` (loose equality with a non-numeric string):
true for that string only. -/
def isAccessDenied : Val → Bool
  | .str t => t = "Access Denied"
  | _ => false

/-- The closure handed to `community.editProfile` by `changeName` (lines
216-222), as the client calls it with `err`. -/
def editProfileCallback (newName callbackErrorOnly err : Val) (s : Bot) : Outcome :=
  if truthy err then callVal callbackErrorOnly [getError err] s
  else
    let s := { s with displayName := newName }
    let s := s.record (.emit "updatedAccountDetails" [])
    callVal callbackErrorOnly [.undefined] s

/-- The closure handed to `TradeOfferManager.setCookies` by `loggedInAccount`
(lines 321-331), as the manager calls it with `err`. -/
def setCookiesCallback (err : Val) (s : Bot) : Bot :=
  let s :=
    if truthy err then
      let s := s.record (.log "debug"
        [.str "Failed to get API Key - TradeOverflowChecking disabled for %j & getOffers call disabled.",
         s.username, getError err])
      if isAccessDenied (getError err) then { s with api_access := .bool false } else s
    else { s with api_access := .bool true }
  s.record (.setAPIAccess s.api_access)

/-! ## Settings -/

/-- `Bot.prototype.setSetting` (lines 463-466).  The body reads the identifiers
`tempSetting` and `tempSettingValue`, which are neither parameters nor declared
anywhere: evaluating the property key `tempSetting` throws a `ReferenceError`
before anything is assigned. -/
def setSetting (_settingName _tempSettingValusettingName : Val) (s : Bot) : Outcome :=
  .threw (.referenceError "tempSetting is not defined") s

/-- `Bot.prototype.getSetting` (lines 467-472), for a `settings` object on which
the own-property test of line 469 can be made: an ordinary object that has no
own property named `hasOwnProperty`, as the default settings are.  On other
`settings` objects the test itself throws, which this function does not
describe. -/
def getSetting (tempSetting : String) (s : Bot) : Val :=
  match getProp s.settings tempSetting with
  | some v => v
  | none => .undefined

/-- `Bot.prototype.deleteSetting` (lines 473-477), for a `settings` object on
which the own-property test of line 475 can be made (see `getSetting`). -/
def deleteSetting (tempSetting : String) (s : Bot) : Bot :=
  if (getProp s.settings tempSetting).isSome then
    { s with settings := s.settings.filter fun kv => kv.1 ≠ tempSetting }
  else s

/-! ## API requests (`Request.js`) -/

/-- The `options` object of `getRequestAPI`: its own enumerable properties in
enumeration order, the enumerable properties it inherits, and what its prototype
chain provides under `hasOwnProperty` besides them. -/
structure Options where
  own : List (String × Val)
  inherited : List (String × Val)
  proto : OwnTest
  deriving DecidableEq, Repr

/-- The property names `for (var option in options)` visits: the own ones, then
the inherited ones that no own property hides. -/
def Options.enumerated (o : Options) : List String :=
  o.own.map Prod.fst
    ++ (o.inherited.map Prod.fst).filter fun k => (getProp o.own k).isNone

/-- The `for ... in` loop of `getRequestAPI` (lines 71-73) over the remaining
property names; the state is `(string, x)`. -/
def queryLoop (o : Options) : List String → Val × Nat → Except Val (Val × Nat)
  | [], acc => .ok acc
  | option :: rest, (string, x) =>
    match callHasOwn o.own o.inherited o.proto option with
    | .error e => .error e
    | .ok false => queryLoop o rest (string, x)
    | .ok true =>
      let value := (getProp o.own option).getD .undefined
      let separator := if (x : Int) < (o.own.length : Int) - 1 then "&" else ""
      queryLoop o rest
        (jsAdd string (jsAdd (jsAdd (jsAdd (.str option) (.str "=")) value) (.str separator)),
         x + 1)

/-- The query string built by lines 69-73.  With `options` undefined or `null` the
loop body never runs. -/
def queryString (options : Option Options) : Except Val Val :=
  match options with
  | none => .ok (.str "?")
  | some o =>
    match queryLoop o o.enumerated (.str "?", 0) with
    | .error e => .error e
    | .ok acc => .ok acc.1

/-- `Request.prototype.getRequestAPI` (lines 68-82) up to the call of `fetch`:
the URL handed to `fetch`, or the exception thrown before `fetch` is reached. -/
def getRequestAPI (apiInterface version method : Val) (options : Option Options) :
    Except Val Val :=
  match queryString options with
  | .error e => .error e
  | .ok string =>
    .ok (jsAdd (jsAdd (jsAdd (jsAdd (jsAdd (jsAdd (jsAdd
      (.str "http://api.steampowered.com/") apiInterface) (.str "/")) method) (.str "/"))
      version) (.str "/")) string)

/-! ## Vocabulary of the properties -/

/-- A call of one of the three gated methods, with the values bound to its
declared parameters: a missing argument is `undefined`, and arguments beyond
the declared parameters, which the methods never read, are not part of the
call. -/
inductive GatedCall
  | changeName (newName namePrefix callbackErrorOnly : Val)
  | getInventory (appid contextid tradableOnly inventoryCallback : Val)
  | getUserInventory (steamID appid contextid tradableOnly inventoryCallback : Val)
  deriving DecidableEq, Repr

/-- The method a gated call refers to. -/
def GatedCall.fn : GatedCall → Fn
  | .changeName .. => .changeName
  | .getInventory .. => .getInventory
  | .getUserInventory .. => .getUserInventory

/-- The argument list of a gated call. -/
def GatedCall.params : GatedCall → List Val
  | .changeName a b c => [a, b, c]
  | .getInventory a b c d => [a, b, c, d]
  | .getUserInventory a b c d e => [a, b, c, d, e]

/-- The queue entry `wrapFunction(self.method, self, [args...])` of a gated call. -/
def GatedCall.entry (c : GatedCall) : Entry := { fn := c.fn, params := c.params }

/-- Make the call on a bot. -/
def GatedCall.run : GatedCall → Bot → Outcome
  | .changeName a b c => SteamBot.changeName a b c
  | .getInventory a b c d => SteamBot.getInventory a b c d
  | .getUserInventory a b c d e => SteamBot.getUserInventory a b c d e

/-- The call a gated method makes on its external client when the bot is
authenticated: `editProfile` on the community instance, `loadInventory` or
`loadUserInventory` on the trade-offer manager instance. -/
def GatedCall.clientCall (community manager : Nat) : GatedCall → Effect
  | .changeName a b c =>
    .editProfile community (jsAdd (if isNullish b then .str "" else b) a) a c
  | .getInventory a b c d => .loadInventory manager [a, b, c, d]
  | .getUserInventory a b c d e => .loadUserInventory manager [a, b, c, d, e]

/-- What a drain adds to the trace for one deferred gated call on an
authenticated bot: the wrapped call, then the client call it makes. -/
def GatedCall.replay (community manager : Nat) (c : GatedCall) : List Effect :=
  [.apply c.fn c.params, c.clientCall community manager]

/-- Make a sequence of gated calls, one after the other; an exception stops the sequence. -/
def runCalls : List GatedCall → Bot → Outcome
  | [], s => .ok s
  | c :: cs, s =>
    match c.run s with
    | .ok s => runCalls cs s
    | o => o

/-- The bot as the method left it, whether it returned or threw. -/
def Outcome.bot : Outcome → Option Bot
  | .ok s => some s
  | .threw _ s => some s
  | .outOfFuel => none

/-- The wrapped calls recorded in a trace, in order. -/
def dispatched : List Effect → List Entry
  | [] => []
  | .apply f p :: t => { fn := f, params := p } :: dispatched t
  | _ :: t => dispatched t

/-- What `loggedInAccount` adds to the trace up to the assignment
`self.loggedIn = true` (lines 309-334). -/
def loginPrelude (s : Bot) (cookies : Option Cookies) : List Effect :=
  [.friendsLogin, .log "debug" [.str "Logged into %j", s.username], .emit "loggedIn" [.self]]
    ++ match cookies with
      | some c => [.setCookies s.community c, .setCookies s.store c,
                   .setCookiesProbe s.TradeOfferManager c]
      | none => []

/-- The registrations of one bridge table on one source instance. -/
def bridgeListeners (source : Nat) (table : List (String × Handler)) : List Listener :=
  table.map fun eh => { source := source, event := eh.1, handler := eh.2 }

/-- The `on` calls of one bridge table on one source instance. -/
def bridgeTrace (source : Nat) (table : List (String × Handler)) : List Effect :=
  table.map fun eh => .on source eh.1 eh.2

/-- What calling `f(undefined)` adds to the trace when `f` is a function. -/
def callTrace : Val → List Effect
  | .fn id => [.call id [.undefined]]
  | _ => []

/-- The bot once queue `q` has been emptied: an existing queue stays as an empty
array, a queue that was never created is not created. -/
def Bot.emptied (s : Bot) (q : String) : Bot :=
  match s.queue q with
  | some _ => { s with delayedTasks := setQueue s.delayedTasks q [] }
  | none => s

/-- The bot built by `new Bot("bot", "secret", undefined, undefined, logger)`. -/
def sampleBot : Bot :=
  { username := .str "bot", password := .str "secret", displayName := .undefined,
    details := .undefined, settings := defaultSettings, loggedIn := false, rateLimited := true,
    delayedTasks := [], sessionID := none, cookies := none, api_access := .undefined,
    community := 0, client := 1, TradeOfferManager := 2, store := 3, nextId := 4,
    listeners := [], trace := [] }

/-- Two deferred calls used as a running example. -/
def sampleCalls : List GatedCall :=
  [.changeName (.str "Alice") (.str "") (.fn 1),
   .getInventory (.num 730) (.num 2) (.bool true) (.fn 2)]

/-- The outward events recorded in a trace, in order. -/
def outward : List Effect → List (String × List Val)
  | [] => []
  | .emit ev args :: t => (ev, args) :: outward t
  | _ :: t => outward t

/-- Number of outward emissions of one event in a trace. -/
def emissions (event : String) (t : List Effect) : Nat :=
  ((outward t).filter fun e => e.1 = event).length

/-- What one run of a listener closure adds to the trace. -/
def Handler.effects (h : Handler) (args : List Val) : List Effect :=
  (match h with
    | .sessionExpired =>
      [Effect.log "debug" [jsAdd (.str "Login session expired due to ") (arg args 0)]]
    | _ => [])
  ++ [.emit h.outward ((List.range h.arity).map (arg args))]

/-- What an underlying emission adds to the trace. -/
def sourceTrace (source : Nat) (event : String) (args : List Val) (s : Bot) : List Effect :=
  (sourceEmit source event args s).trace.drop s.trace.length

/-- A bot with `changeName("Alice", "", cb)` deferred. -/
def sampleQueued : Bot :=
  { sampleBot with delayedTasks :=
      [("login", [{ fn := .changeName, params := [.str "Alice", .str "", .fn 1] }])] }

/-- The bot `sampleBot` after `loggedInAccount(["c"], "sid", cb)`. -/
def sampleLoggedIn : Bot :=
  { sampleBot with
    sessionID := some "sid", cookies := some ["c"], loggedIn := true,
    listeners := bridgeListeners 0 communityBridge ++ bridgeListeners 2 managerBridge,
    trace := loginPrelude sampleBot (some ["c"])
      ++ (bridgeTrace 0 communityBridge ++ bridgeTrace 2 managerBridge ++ [.call 9 [.undefined]]) }

/-- The bot `sampleLoggedIn` after a second `loggedInAccount(["c"], "sid", cb)`. -/
def sampleLoggedInTwice : Bot :=
  { sampleLoggedIn with
    listeners := sampleLoggedIn.listeners
      ++ (bridgeListeners 0 communityBridge ++ bridgeListeners 2 managerBridge),
    trace := sampleLoggedIn.trace ++ (loginPrelude sampleBot (some ["c"])
      ++ (bridgeTrace 0 communityBridge ++ bridgeTrace 2 managerBridge ++ [.call 9 [.undefined]])) }

/-- The registrations one run of the login continuation makes (lines 340-442). -/
def loginBridge (s : Bot) : List Listener :=
  bridgeListeners s.community communityBridge
    ++ bridgeListeners s.TradeOfferManager managerBridge

/-- What one `loggedInAccount` adds to the trace of a bot whose `login` queue
holds the deferred gated calls `cs`. -/
def loginTrace (s : Bot) (cookies : Option Cookies) (cs : List GatedCall)
    (callbackErrorOnly : Val) : List Effect :=
  loginPrelude s cookies
    ++ cs.flatMap (GatedCall.replay s.community s.TradeOfferManager)
    ++ (bridgeTrace s.community communityBridge
      ++ bridgeTrace s.TradeOfferManager managerBridge ++ callTrace callbackErrorOnly)

/-- The deferred `changeName("Alice", "", cb)` as a queue entry. -/
def sampleEntry : Entry := { fn := .changeName, params := [.str "Alice", .str "", .fn 1] }

/-- The bot `sampleBot` after
`addToQueue("hasOwnProperty", self.changeName, ["Alice", "", cb])`: `delayedTasks`
has an own property named `hasOwnProperty`, which holds an array. -/
def sampleShadowed : Bot :=
  { sampleBot with delayedTasks := [("hasOwnProperty", [sampleEntry])] }

/-- The `TypeError` of the call `self.delayedTasks.hasOwnProperty(queueName)` when
`delayedTasks` has an own property of that name. -/
def shadowedError : Val :=
  .typeError "self.delayedTasks.hasOwnProperty is not a function"

/-- The authenticated bot `sampleLoggedIn` after
`addToQueue("hasOwnProperty", self.changeName, ["Alice", "", cb])`. -/
def sampleShadowedIn : Bot :=
  { sampleLoggedIn with delayedTasks := [("hasOwnProperty", [sampleEntry])] }

/-- The bot `sampleBot` after `addToQueue("jobs", f, [])` with a function `f` that
throws `Error("boom")`, then `addToQueue("jobs", self.changeName, ["Alice", "", cb])`. -/
def sampleFailing : Bot :=
  { sampleBot with
    delayedTasks := [("jobs", [{ fn := .raise (.error "boom"), params := [] }, sampleEntry])] }

/-- An authenticated bot whose queue `jobs` holds a deferred `changeName`, the
entry `e` and another deferred `changeName`. -/
def sampleJobs (e : Entry) : Bot :=
  { sampleLoggedIn with delayedTasks := [("jobs", [sampleEntry, e, sampleEntry])] }

/-- An entry that does nothing but throw `Error("boom")`. -/
def sampleRaise : Entry := { fn := .raise (.error "boom"), params := [] }

/-- The entry `processQueue("jobs", undefined)`: the nested drain applies what is
left in the queue, then its call of the missing callback throws a `TypeError`. -/
def sampleRedrain : Entry := { fn := .processQueue "jobs" .undefined, params := [] }

/-- The bot `sampleJobs sampleRaise` after `processQueue("jobs", cb)` has applied
the first entry and the throwing entry: the last entry is still queued. -/
def sampleRaiseThrown : Bot :=
  { sampleLoggedIn with
    delayedTasks := [("jobs", [sampleEntry])],
    trace := sampleLoggedIn.trace
      ++ [.apply .changeName [.str "Alice", .str "", .fn 1],
          .editProfile 0 (.str "Alice") (.str "Alice") (.fn 1),
          .apply (.raise (.error "boom")) []] }

/-- The bot `sampleJobs sampleRedrain` after `processQueue("jobs", cb)` has applied
the first entry and the re-draining entry: the nested drain has applied the
last entry and the queue is empty. -/
def sampleRedrainThrown : Bot :=
  { sampleLoggedIn with
    delayedTasks := [("jobs", [])],
    trace := sampleLoggedIn.trace
      ++ [.apply .changeName [.str "Alice", .str "", .fn 1],
          .editProfile 0 (.str "Alice") (.str "Alice") (.fn 1),
          .apply (.processQueue "jobs" .undefined) [],
          .apply .changeName [.str "Alice", .str "", .fn 1],
          .editProfile 0 (.str "Alice") (.str "Alice") (.fn 1)] }

/-- The bot `sampleBot` after `addToQueue("jobs", f, [])` with a function `f` that
calls `this.processQueue("jobs", cb5)`, then
`addToQueue("jobs", self.changeName, ["Alice", "", cb])`. -/
def sampleNested : Bot :=
  { sampleBot with
    delayedTasks := [("jobs", [{ fn := .processQueue "jobs" (.fn 5), params := [] }, sampleEntry])] }

/-- The session state of the bot: stored cookies, stored session id, `loggedIn`. -/
def Bot.session (s : Bot) : Option Cookies × Option String × Bool :=
  (s.cookies, s.sessionID, s.loggedIn)

/-- The session invariant of the specification: cookies and session id are both
present or both absent, and `loggedIn` implies that both are present. -/
def sessionInvariant (s : Bot) : Prop :=
  (s.cookies.isSome = s.sessionID.isSome)
    ∧ (s.loggedIn = true → s.cookies.isSome = true ∧ s.sessionID.isSome = true)

instance sessionInvariant.decidable (s : Bot) : Decidable (sessionInvariant s) :=
  inferInstanceAs (Decidable (_ ∧ _))

/-- One step of a client of the bot. -/
inductive Action
  | login (cookies : Option Cookies) (sessionID : Option String) (callbackErrorOnly : Val)
  | logout
  | call (c : GatedCall)
  deriving DecidableEq, Repr

/-- Run one step. -/
def Action.run (fuel : Nat) : Action → Bot → Outcome
  | .login cookies sessionID callbackErrorOnly, s =>
    loggedInAccount fuel cookies sessionID callbackErrorOnly s
  | .logout, s => .ok (logoutAccount s)
  | .call c, s => c.run s

/-- Does a step hand both session artifacts to the bot?  Only `login` steps can fail to. -/
def Action.suppliesSession : Action → Bool
  | .login cookies sessionID _ => cookies.isSome && sessionID.isSome
  | _ => true

/-- Run a sequence of steps; a step that throws leaves the bot as it was at the
throw and the sequence goes on. -/
def runActions (fuel : Nat) : List Action → Bot → Option Bot
  | [], s => some s
  | a :: rest, s =>
    match (a.run fuel s).bot with
    | some s' => runActions fuel rest s'
    | none => none

/-- The four collaborator instances the bot currently holds. -/
def Bot.instances (s : Bot) : List Nat :=
  [s.community, s.client, s.TradeOfferManager, s.store]

/-- Every instance the bot holds, and every instance a listener is registered
on, has been allocated: its identity is below `nextId`. -/
def Bot.wellFormed (s : Bot) : Prop :=
  (∀ i ∈ s.instances, i < s.nextId) ∧ (∀ l ∈ s.listeners, l.source < s.nextId)

instance Bot.wellFormed.decidable (s : Bot) : Decidable s.wellFormed :=
  inferInstanceAs (Decidable (_ ∧ _))

/-- The listeners registered on one source instance. -/
def Bot.listenersOn (s : Bot) (source : Nat) : List Listener :=
  s.listeners.filter fun l => l.source = source

/-- A sequence of underlying emissions `(source, event, args)`, one after the other. -/
def sourceEmitAll (events : List (Nat × String × List Val)) (s : Bot) : Bot :=
  events.foldl (fun s e => sourceEmit e.1 e.2.1 e.2.2 s) s

/-- The names handed to `editProfile`, in trace order. -/
def profileEdits : List Effect → List Val
  | [] => []
  | .editProfile _ name _ _ :: t => name :: profileEdits t
  | _ :: t => profileEdits t

/-- A call `changeName(newName, namePrefix, cb)` with a string name and a prefix
that is a string or `undefined`. -/
structure NameChange where
  newName : String
  namePrefix : Option String
  callbackErrorOnly : Val
  deriving DecidableEq, Repr

/-- The gated call of a name change. -/
def NameChange.call (c : NameChange) : GatedCall :=
  .changeName (.str c.newName)
    (match c.namePrefix with
      | some p => .str p
      | none => .undefined)
    c.callbackErrorOnly

/-- The profile name the specification expects for a name change: the prefix
concatenated before the new name, an undefined prefix counting as the empty
string. -/
def NameChange.expected (c : NameChange) : String :=
  (match c.namePrefix with
    | some p => p
    | none => "") ++ c.newName

/-- The bot `sampleLoggedIn` after `changeName("Alice", "", cb1)`: the profile
edit has been handed to the community client and its reply is pending. -/
def sampleEditing : Bot :=
  sampleLoggedIn.record (.editProfile 0 (.str "Alice") (.str "Alice") (.fn 1))

/-- The bot `sampleLoggedIn` after a successful API-capability probe. -/
def sampleProbed : Bot :=
  { sampleLoggedIn with
    api_access := .bool true,
    trace := sampleLoggedIn.trace ++ [.setAPIAccess (.bool true)] }

/-- The log line of a failed probe (line 323). -/
def probeLog (s : Bot) (err : Val) : Effect :=
  .log "debug"
    [.str "Failed to get API Key - TradeOverflowChecking disabled for %j & getOffers call disabled.",
     s.username, getError err]

/-- The error thrown by the constructor's credential check (line 29). -/
def invalidCredentials : Val :=
  .error "Invalid username/password or missing oAuthToken/Steamguard code"

/-- The credential check of the constructor fails: the username or the password
is not a string, and `details` lacks `steamguard` or lacks `oAuthToken`. -/
def rejects (username password : Val) (props : List (String × Val)) : Prop :=
  (notString username = true ∨ notString password = true)
    ∧ ((getProp props "steamguard").isNone = true ∨ (getProp props "oAuthToken").isNone = true)

instance rejects.decidable (username password : Val) (props : List (String × Val)) :
    Decidable (rejects username password props) :=
  inferInstanceAs (Decidable (_ ∧ _))

/-- An option value whose text in the URL the claim fixes: a string, a whole
number, or a boolean. -/
inductive Scalar
  | text (s : String)
  | whole (n : Int)
  | flag (b : Bool)
  deriving DecidableEq, Repr

/-- The JavaScript value of a scalar. -/
def Scalar.val : Scalar → Val
  | .text s => .str s
  | .whole n => .num n
  | .flag b => .bool b

/-- Is the scalar a string, a boolean, or a whole number of magnitude at most
2^53? -/
def Scalar.exact : Scalar → Bool
  | .whole n => n.natAbs ≤ 9007199254740992
  | _ => true

/-- The text of a scalar in a URL: a string as it is, a whole number in decimal
digits with a minus sign in front when it is negative, a boolean as `true` or
`false`. -/
def Scalar.written : Scalar → String
  | .text s => s
  | .whole n => if n < 0 then "-" ++ Nat.repr n.natAbs else Nat.repr n.natAbs
  | .flag true => "true"
  | .flag false => "false"

/-- The text `k1=v1&k2=v2&...&kn=vn`, built pair by pair. -/
def queryPairs : List (String × Scalar) → String
  | [] => ""
  | [kv] => kv.1 ++ "=" ++ kv.2.written
  | kv :: rest => kv.1 ++ "=" ++ kv.2.written ++ "&" ++ queryPairs rest

/-- An ordinary options object (one that inherits the built-in `hasOwnProperty`)
with the given own properties and inherited enumerable properties. -/
def ordinaryOptions (pairs : List (String × Scalar)) (inherited : List (String × Val)) :
    Options :=
  { own := pairs.map fun kv => (kv.1, kv.2.val), inherited := inherited, proto := .builtin }

/-- The options `{key: "abc", steamid: 42}`. -/
def sampleOptions : List (String × Scalar) := [("key", .text "abc"), ("steamid", .whole 42)]

/-! ## Lemmas on the queue map -/

theorem getQueue_setQueue (m : List (String × List Entry)) (q : String) (v : List Entry) :
    getQueue (setQueue m q v) q = some v := by
  induction m with
  | nil => simp [setQueue, getQueue]
  | cons kv rest ih =>
    obtain ⟨k, w⟩ := kv
    by_cases h : k = q <;> simp [setQueue, getQueue, h, ih]

theorem getQueue_setQueue_ne (m : List (String × List Entry)) (q q' : String) (v : List Entry)
    (h : q' ≠ q) : getQueue (setQueue m q v) q' = getQueue m q' := by
  induction m with
  | nil => simp [setQueue, getQueue, Ne.symm h]
  | cons kv rest ih =>
    obtain ⟨k, w⟩ := kv
    by_cases hk : k = q
    · subst hk; simp [setQueue, getQueue, Ne.symm h]
    · by_cases hk' : k = q'
      · subst hk'; simp [setQueue, getQueue, h]
      · simp [setQueue, getQueue, hk, hk', ih]

theorem setQueue_setQueue (m : List (String × List Entry)) (q : String) (v w : List Entry) :
    setQueue (setQueue m q v) q w = setQueue m q w := by
  induction m with
  | nil => simp [setQueue]
  | cons kv rest ih =>
    obtain ⟨k, u⟩ := kv
    by_cases h : k = q <;> simp [setQueue, h, ih]

theorem invoke_gated (fuel : Nat) (c : GatedCall) (s : Bot) (h : s.loggedIn = true) :
    invoke (fuel + 1) c.entry s
      = .ok { s with trace := s.trace ++ c.replay s.community s.TradeOfferManager } := by
  cases c <;>
    simp [invoke, GatedCall.entry, GatedCall.fn, GatedCall.params, GatedCall.clientCall, GatedCall.replay, arg,
      changeName, getInventory, getUserInventory, Bot.record, h]

theorem setQueue_self (m : List (String × List Entry)) (q : String) (v : List Entry)
    (h : getQueue m q = some v) : setQueue m q v = m := by
  induction m with
  | nil => simp [getQueue] at h
  | cons kv rest ih =>
    obtain ⟨k, u⟩ := kv
    by_cases hk : k = q
    · simp [getQueue, hk] at h
      simp [setQueue, hk, h]
    · simp [getQueue, hk] at h
      simp [setQueue, hk, ih h]

theorem queue_some_ne {s : Bot} {q : String} {es : List Entry} (h : s.queue q = some es) :
    ¬ (q = "length" ∨ q = "__proto__") := by
  intro hq
  simp [Bot.queue, hq] at h

theorem queue_eq_getQueue {s : Bot} {q : String} (hq : ¬ (q = "length" ∨ q = "__proto__")) :
    s.queue q = getQueue s.delayedTasks q := by
  simp only [Bot.queue, if_neg hq]

theorem hasQueue_ok (s : Bot) (q : String) (hns : s.queue "hasOwnProperty" = none) :
    s.hasQueue q = .ok (s.owns q) := by
  simp [Bot.hasQueue, hns]

/-- Once a queue named `hasOwnProperty` exists, every `addToQueue` and every
`processQueue` throws a `TypeError` at its own-property test and leaves the bot
as it was. -/
theorem shadowed_throws (s : Bot) (es : List Entry) (h : s.queue "hasOwnProperty" = some es)
    (q : String) (f : Fn) (d : List Val) (k : Callback) (fuel : Nat) :
    addToQueue q f d s = .threw shadowedError s
      ∧ processQueue (fuel + 1) q k s = .threw shadowedError s := by
  have hq : s.hasQueue q = .error shadowedError := by simp [Bot.hasQueue, h, shadowedError]
  exact ⟨by rw [addToQueue, hq], by rw [processQueue, hq]⟩

theorem queue_setQueue_ne (s : Bot) (q q' : String) (v : List Entry) (h : q ≠ q') :
    Bot.queue { s with delayedTasks := setQueue s.delayedTasks q v } q' = s.queue q' := by
  simp only [Bot.queue]
  split
  · rfl
  · exact getQueue_setQueue_ne _ _ _ _ (Ne.symm h)

theorem unshadowed_setQueue (s : Bot) (q : String) (v es : List Entry) (t : List Effect)
    (hns : s.queue "hasOwnProperty" = none) (hq : s.queue q = some es) :
    Bot.queue { s with delayedTasks := setQueue s.delayedTasks q v, trace := t }
      "hasOwnProperty" = none := by
  have hne : q ≠ "hasOwnProperty" := by
    rintro rfl
    rw [hns] at hq
    cases hq
  have := queue_setQueue_ne s q "hasOwnProperty" v hne
  rw [hns] at this
  exact this

/-! ## Lemmas on draining -/

theorem gated_call_authenticated (c : GatedCall) (s : Bot) (h : s.loggedIn = true) :
    c.run s = .ok (s.record (c.clientCall s.community s.TradeOfferManager)) := by
  cases c <;>
    simp [GatedCall.run, GatedCall.clientCall, changeName, getInventory, getUserInventory, h]

theorem drainLoop_gated_front (q : String) (post : List Entry) (cs : List GatedCall) :
    ∀ (fuel : Nat) (s : Bot), s.loggedIn = true → 1 ≤ fuel →
      s.queue q = some (cs.map GatedCall.entry ++ post) →
      drainLoop (fuel + cs.length) q s
        = drainLoop fuel q { s with
            delayedTasks := setQueue s.delayedTasks q post,
            trace := s.trace ++ cs.flatMap (GatedCall.replay s.community s.TradeOfferManager) } := by
  induction cs with
  | nil =>
    intro fuel s _ _ hq
    have hne := queue_some_ne hq
    rw [queue_eq_getQueue hne] at hq
    simp at hq
    simp [setQueue_self _ _ _ hq]
  | cons c cs ih =>
    intro fuel s hIn hFuel hq
    have hne := queue_some_ne hq
    obtain ⟨f, rfl⟩ : ∃ f, fuel = f + 1 := ⟨fuel - 1, by omega⟩
    have h1 : f + 1 + (c :: cs).length = (f + 1 + cs.length) + 1 := by simp; omega
    have h2 : f + 1 + cs.length = (f + cs.length) + 1 := by omega
    rw [h1, drainLoop]
    simp only [hq, List.map_cons, List.cons_append]
    rw [h2, invoke_gated _ _ _ (by simpa using hIn), ← h2]
    simp only
    rw [ih (f + 1) _ (by simpa using hIn) (by omega)
      (by rw [queue_eq_getQueue hne]; simp [getQueue_setQueue])]
    simp [setQueue_setQueue, List.flatMap_cons]

theorem attach_eq (source : Nat) (table : List (String × Handler)) :
    ∀ s : Bot, attach source table s
      = { s with listeners := s.listeners ++ bridgeListeners source table,
                 trace := s.trace ++ bridgeTrace source table } := by
  induction table with
  | nil => intro s; simp [attach, bridgeListeners, bridgeTrace]
  | cons eh rest ih =>
    intro s
    have h := ih (s.on source eh)
    simp only [attach, List.foldl_cons] at h ⊢
    rw [h]
    simp [Bot.on, bridgeListeners, bridgeTrace]

theorem callVal_bot (f : Val) (args : List Val) (s : Bot) (h : args = [.undefined]) :
    (callVal f args s).bot = some { s with trace := s.trace ++ callTrace f } := by
  subst h
  cases f <;> simp [callVal, callTrace, Outcome.bot, Bot.record]

theorem callTrace_falsy (f : Val) (h : truthy f = false) : callTrace f = [] := by
  cases f <;> simp_all [callTrace, truthy]

theorem runCallback_loginDone (callbackErrorOnly : Val) (s : Bot) :
    (runCallback (.loginDone callbackErrorOnly) s).bot
      = some { s with
          listeners := s.listeners ++ (bridgeListeners s.community communityBridge
            ++ bridgeListeners s.TradeOfferManager managerBridge),
          trace := s.trace ++ (bridgeTrace s.community communityBridge
            ++ bridgeTrace s.TradeOfferManager managerBridge ++ callTrace callbackErrorOnly) } := by
  simp only [runCallback, attach_eq]
  by_cases h : truthy callbackErrorOnly = true
  · rw [if_pos h, callVal_bot _ _ _ rfl]
    simp
  · rw [if_neg h]
    simp only [Bool.not_eq_true] at h
    simp [Outcome.bot, callTrace_falsy _ h]

theorem store_session (s : Bot) (cookies : Option Cookies) (sessionID : Option String) :
    (if s.sessionID ≠ sessionID ∨ s.cookies ≠ cookies then
      { s with sessionID := sessionID, cookies := cookies } else s)
      = { s with sessionID := sessionID, cookies := cookies } := by
  split
  · rfl
  · rename_i h
    simp only [not_or, not_not] at h
    obtain ⟨h1, h2⟩ := h
    subst h1 h2
    rfl

theorem drainLoop_nil (fuel : Nat) (q : String) (s : Bot) (h : (s.queue q).getD [] = []) :
    drainLoop (fuel + 1) q s = .ok s := by
  rw [drainLoop]
  cases hq : s.queue q with
  | none => rfl
  | some es =>
    rw [hq] at h
    simp at h
    subst h
    rfl

theorem queue_setQueue (s : Bot) (q : String) (v : List Entry) (t : List Effect)
    (hne : ¬ (q = "length" ∨ q = "__proto__")) :
    Bot.queue { s with delayedTasks := setQueue s.delayedTasks q v, trace := t } q = some v := by
  rw [queue_eq_getQueue hne]
  exact getQueue_setQueue _ _ _

theorem drainLoop_gated (q : String) (cs : List GatedCall) (fuel : Nat) (s : Bot)
    (hIn : s.loggedIn = true) (hq : (s.queue q).getD [] = cs.map GatedCall.entry)
    (hFuel : cs.length + 1 ≤ fuel) :
    drainLoop fuel q s
      = .ok { s.emptied q with
          trace := s.trace ++ cs.flatMap (GatedCall.replay s.community s.TradeOfferManager) } := by
  cases hsq : s.queue q with
  | none =>
    rw [hsq] at hq
    have hcs : cs = [] := by
      cases cs with
      | nil => rfl
      | cons c cs => simp at hq
    subst hcs
    obtain ⟨f, rfl⟩ : ∃ f, fuel = f + 1 := ⟨fuel - 1, by simp at hFuel; omega⟩
    rw [drainLoop_nil _ _ _ (by simp [hsq])]
    simp [Bot.emptied, hsq]
  | some es =>
    rw [hsq] at hq
    simp only [Option.getD_some] at hq
    subst hq
    have hne := queue_some_ne hsq
    obtain ⟨f, rfl⟩ : ∃ f, fuel = (f + 1) + cs.length := ⟨fuel - cs.length - 1, by omega⟩
    rw [drainLoop_gated_front q [] cs (f + 1) s hIn (by omega) (by simpa using hsq)]
    rw [drainLoop_nil _ _ _ (by rw [queue_setQueue _ _ _ _ hne]; rfl)]
    simp [Bot.emptied, hsq]

theorem processQueue_gated (q : String) (cs : List GatedCall) (k : Callback) (fuel : Nat)
    (s : Bot) (hns : s.queue "hasOwnProperty" = none) (hIn : s.loggedIn = true)
    (hq : (s.queue q).getD [] = cs.map GatedCall.entry) (hFuel : cs.length + 2 ≤ fuel) :
    processQueue fuel q k s
      = runCallback k { s.emptied q with
          trace := s.trace ++ cs.flatMap (GatedCall.replay s.community s.TradeOfferManager) } := by
  obtain ⟨f, rfl⟩ : ∃ f, fuel = f + 1 := ⟨fuel - 1, by omega⟩
  rw [processQueue, hasQueue_ok s q hns]
  dsimp only
  by_cases hh : s.owns q = true
  · rw [if_pos hh, drainLoop_gated q cs f s hIn hq (by omega)]
  · rw [if_neg hh]
    have hnone : s.queue q = none := by
      cases hsq : s.queue q with
      | none => rfl
      | some es => simp [Bot.owns, hsq] at hh
    rw [hnone] at hq
    have hcs : cs = [] := by
      cases cs with
      | nil => rfl
      | cons c cs => simp at hq
    subst hcs
    simp [Bot.emptied, hnone]

theorem loggedInAccount_eq (s : Bot) (cookies : Option Cookies) (sessionID : Option String)
    (callbackErrorOnly : Val) (fuel : Nat) :
    loggedInAccount fuel cookies sessionID callbackErrorOnly s
      = processQueue fuel "login" (.loginDone callbackErrorOnly)
          { s with sessionID := sessionID, cookies := cookies, loggedIn := true,
                   trace := s.trace ++ loginPrelude s cookies } := by
  unfold loggedInAccount
  dsimp only
  rw [store_session]
  cases cookies <;> simp [Bot.record, loginPrelude]

theorem loggedInAccount_gated (cs : List GatedCall) (s : Bot) (cookies : Option Cookies)
    (sessionID : Option String) (callbackErrorOnly : Val) (fuel : Nat)
    (hns : s.queue "hasOwnProperty" = none)
    (hq : (s.queue "login").getD [] = cs.map GatedCall.entry) (hFuel : cs.length + 2 ≤ fuel) :
    (loggedInAccount fuel cookies sessionID callbackErrorOnly s).bot
      = some { s.emptied "login" with
          sessionID := sessionID, cookies := cookies, loggedIn := true,
          listeners := s.listeners ++ (bridgeListeners s.community communityBridge
            ++ bridgeListeners s.TradeOfferManager managerBridge),
          trace := s.trace ++ (loginPrelude s cookies
            ++ cs.flatMap (GatedCall.replay s.community s.TradeOfferManager)
            ++ (bridgeTrace s.community communityBridge
              ++ bridgeTrace s.TradeOfferManager managerBridge
              ++ callTrace callbackErrorOnly)) } := by
  rw [loggedInAccount_eq]
  rw [processQueue_gated "login" cs _ fuel _ (by simpa [Bot.queue] using hns) rfl
    (by simpa [Bot.queue] using hq) hFuel]
  rw [runCallback_loginDone]
  cases hsq : s.queue "login" <;>
    simp [Bot.emptied, Bot.queue] at hsq ⊢ <;> simp [hsq]

/-! ## Lemmas on deferred calls -/

theorem run_unauthenticated (c : GatedCall) (s : Bot) (h : s.loggedIn = false)
    (hns : s.queue "hasOwnProperty" = none) :
    c.run s = .ok { s with
      delayedTasks := setQueue s.delayedTasks "login" ((s.queue "login").getD [] ++ [c.entry]) } := by
  cases c <;>
    simp [GatedCall.run, GatedCall.entry, GatedCall.fn, GatedCall.params, changeName,
      getInventory, getUserInventory, addToQueue, hasQueue_ok s _ hns, h]

theorem queue_login (s : Bot) : s.queue "login" = getQueue s.delayedTasks "login" := by
  simp [Bot.queue]

theorem runCalls_unauthenticated (calls : List GatedCall) :
    ∀ s : Bot, s.loggedIn = false → s.queue "hasOwnProperty" = none →
      ∃ s1, runCalls calls s = .ok s1
        ∧ (s1.queue "login").getD [] = (s.queue "login").getD [] ++ calls.map GatedCall.entry
        ∧ s1 = { s with delayedTasks := s1.delayedTasks }
        ∧ s1.queue "hasOwnProperty" = none := by
  induction calls with
  | nil => intro s _ hns; exact ⟨s, rfl, by simp, rfl, hns⟩
  | cons c cs ih =>
    intro s h hns
    obtain ⟨s1, hrun, hq, hs1, hns1⟩ := ih { s with
      delayedTasks := setQueue s.delayedTasks "login" ((s.queue "login").getD [] ++ [c.entry]) } h
      (by rw [queue_setQueue_ne s "login" "hasOwnProperty" _ (by decide)]; exact hns)
    refine ⟨s1, ?_, ?_, ?_, hns1⟩
    · simp only [runCalls, run_unauthenticated c s h hns]
      exact hrun
    · rw [hq, queue_login, getQueue_setQueue]
      simp
    · rw [hs1]

theorem dispatched_append (t u : List Effect) :
    dispatched (t ++ u) = dispatched t ++ dispatched u := by
  induction t with
  | nil => rfl
  | cons e t ih => cases e <;> simp [dispatched, ih]

theorem dispatched_replay (community manager : Nat) (calls : List GatedCall) :
    dispatched (calls.flatMap (GatedCall.replay community manager))
      = calls.map GatedCall.entry := by
  induction calls with
  | nil => rfl
  | cons c cs ih =>
    rw [List.flatMap_cons, dispatched_append, ih]
    cases c <;> simp [GatedCall.replay, GatedCall.clientCall, GatedCall.entry, dispatched]

theorem dispatched_bridgeTrace (source : Nat) (table : List (String × Handler)) :
    dispatched (bridgeTrace source table) = [] := by
  induction table with
  | nil => rfl
  | cons eh rest ih => simpa [bridgeTrace, dispatched] using ih

theorem dispatched_callTrace (f : Val) : dispatched (callTrace f) = [] := by
  cases f <;> rfl

theorem dispatched_loginPrelude (s : Bot) (cookies : Option Cookies) :
    dispatched (loginPrelude s cookies) = [] := by
  cases cookies <;> rfl

theorem queue_emptied (s : Bot) (q : String) : ((s.emptied q).queue q).getD [] = [] := by
  cases hsq : s.queue q with
  | none => simp [Bot.emptied, hsq]
  | some es =>
    have hne := queue_some_ne hsq
    simp only [Bot.emptied, hsq]
    rw [queue_eq_getQueue hne, getQueue_setQueue]
    rfl

theorem runCallback_loginDone_ok (callbackErrorOnly : Val) (s : Bot)
    (h : truthy callbackErrorOnly = false ∨ ∃ id, callbackErrorOnly = .fn id) :
    ∃ s', runCallback (.loginDone callbackErrorOnly) s = .ok s' := by
  rcases h with h | ⟨id, rfl⟩
  · simp [runCallback, h]
  · simp [runCallback, truthy, callVal]

theorem loggedInAccount_gated_ok (cs : List GatedCall) (s : Bot) (cookies : Option Cookies)
    (sessionID : Option String) (callbackErrorOnly : Val) (fuel : Nat)
    (hns : s.queue "hasOwnProperty" = none)
    (hq : (s.queue "login").getD [] = cs.map GatedCall.entry) (hFuel : cs.length + 2 ≤ fuel)
    (h : truthy callbackErrorOnly = false ∨ ∃ id, callbackErrorOnly = .fn id) :
    ∃ s', loggedInAccount fuel cookies sessionID callbackErrorOnly s = .ok s' := by
  rw [loggedInAccount_eq]
  rw [processQueue_gated "login" cs _ fuel _ (by simpa [Bot.queue] using hns) rfl
    (by simpa [Bot.queue] using hq) hFuel]
  exact runCallback_loginDone_ok _ _ h

theorem ok_of_bot {o : Outcome} {s s' : Bot} (h : o.bot = some s) (h' : o = .ok s') :
    o = .ok s := by
  subst h'
  simp [Outcome.bot] at h
  rw [h]

/-! ## Replay of deferred calls at login -/

/-- C1 (counterexample): on a fresh bot `addToQueue("hasOwnProperty", ...)`
returns normally and leaves a bot with `loggedIn = false` and an empty `login`
queue on which `delayedTasks.hasOwnProperty` is an array.  On that bot the two
gated calls throw a `TypeError` and defer nothing, and a following
`loggedInAccount` throws the same `TypeError` at the own-property test of
`processQueue`: it has stored the session and set `loggedIn`, but it applies no
wrapped call, attaches no listener and does not call its completion callback. -/
theorem login_after_shadowing_replays_nothing :
    addToQueue "hasOwnProperty" .changeName [.str "Alice", .str "", .fn 1] sampleBot
        = .ok sampleShadowed
      ∧ sampleShadowed.loggedIn = false
      ∧ (sampleShadowed.queue "login").getD [] = []
      ∧ runCalls sampleCalls sampleShadowed = .threw shadowedError sampleShadowed
      ∧ loggedInAccount 4 (some ["c"]) (some "sid") (.fn 9) sampleShadowed
        = .threw shadowedError
            { sampleShadowed with
              sessionID := some "sid", cookies := some ["c"], loggedIn := true,
              trace := loginPrelude sampleShadowed (some ["c"]) }
      ∧ dispatched (loginPrelude sampleShadowed (some ["c"])) = [] := by
  decide

/-- C1 (amended): on a bot on which no queue named `hasOwnProperty` has been
created, n gated calls made while unauthenticated and with an empty `login`
queue are all deferred, and a following `loggedInAccount` (given enough
evaluation budget) applies exactly these n wrapped calls, once each, in call
order and with the argument lists of the calls, each followed by its client
call; it leaves the `login` queue empty, and it returns normally when the
completion callback is falsy or a function. -/
theorem login_replays_deferred_calls (calls : List GatedCall) (s : Bot)
    (cookies : Option Cookies) (sessionID : Option String) (callbackErrorOnly : Val)
    (fuel : Nat) (hns : s.queue "hasOwnProperty" = none) (hOut : s.loggedIn = false)
    (hEmpty : (s.queue "login").getD [] = []) (hFuel : calls.length + 2 ≤ fuel) :
    ∃ s1 s2, runCalls calls s = .ok s1
      ∧ (loggedInAccount fuel cookies sessionID callbackErrorOnly s1).bot = some s2
      ∧ s2.trace = s.trace ++ (loginPrelude s cookies
          ++ calls.flatMap (GatedCall.replay s.community s.TradeOfferManager)
          ++ (bridgeTrace s.community communityBridge
            ++ bridgeTrace s.TradeOfferManager managerBridge ++ callTrace callbackErrorOnly))
      ∧ dispatched (s2.trace.drop s.trace.length) = calls.map GatedCall.entry
      ∧ (s2.queue "login").getD [] = []
      ∧ s2.loggedIn = true
      ∧ ((truthy callbackErrorOnly = false ∨ ∃ id, callbackErrorOnly = .fn id) →
          loggedInAccount fuel cookies sessionID callbackErrorOnly s1 = .ok s2) := by
  obtain ⟨s1, hrun, hq, hs1, hns1⟩ := runCalls_unauthenticated calls s hOut hns
  rw [hEmpty, List.nil_append] at hq
  have hbot :=
    loggedInAccount_gated calls s1 cookies sessionID callbackErrorOnly fuel hns1 hq hFuel
  have hc : s1.community = s.community := by rw [hs1]
  have hm : s1.TradeOfferManager = s.TradeOfferManager := by rw [hs1]
  have ht : s1.trace = s.trace := by rw [hs1]
  have hp : loginPrelude s1 cookies = loginPrelude s cookies := by rw [hs1]; rfl
  have htr : ∀ t : List Effect, ({ s1.emptied "login" with trace := t } : Bot).trace = t := by
    intro t; rfl
  refine ⟨s1, _, hrun, hbot, ?_, ?_, ?_, rfl, ?_⟩
  · simp only [hc, hm, ht, hp]
  · simp only [hc, hm, ht, hp, List.drop_left, dispatched_append, dispatched_replay,
      dispatched_bridgeTrace, dispatched_callTrace, dispatched_loginPrelude,
      List.nil_append, List.append_nil]
  · have := queue_emptied s1 "login"
    simpa [Bot.queue] using this
  · intro h
    obtain ⟨s', hs'⟩ := loggedInAccount_gated_ok calls s1 cookies sessionID callbackErrorOnly
      fuel hns1 hq hFuel h
    exact ok_of_bot hbot hs'

/-- Witness of C1 (amended): two deferred calls on a freshly constructed bot. -/
theorem login_replays_deferred_calls_witness :
    ∃ s1 s2, runCalls sampleCalls sampleBot = .ok s1
      ∧ (loggedInAccount 4 (some ["c"]) (some "sid") (.fn 9) s1).bot = some s2
      ∧ s2.trace = sampleBot.trace ++ (loginPrelude sampleBot (some ["c"])
          ++ sampleCalls.flatMap
            (GatedCall.replay sampleBot.community sampleBot.TradeOfferManager)
          ++ (bridgeTrace sampleBot.community communityBridge
            ++ bridgeTrace sampleBot.TradeOfferManager managerBridge ++ callTrace (.fn 9)))
      ∧ dispatched (s2.trace.drop sampleBot.trace.length) = sampleCalls.map GatedCall.entry
      ∧ (s2.queue "login").getD [] = []
      ∧ s2.loggedIn = true
      ∧ ((truthy (.fn 9) = false ∨ ∃ id, Val.fn 9 = .fn id) →
          loggedInAccount 4 (some ["c"]) (some "sid") (.fn 9) s1 = .ok s2) :=
  login_replays_deferred_calls sampleCalls sampleBot (some ["c"]) (some "sid") (.fn 9) 4
    rfl rfl rfl (by decide)

/-! ## Deferral of gated calls -/

/-- C2 (counterexample): on the bot with `loggedIn = false` that
`addToQueue("hasOwnProperty", ...)` leaves, `changeName("Alice", "", cb)` throws
a `TypeError` at the own-property test of `addToQueue` and appends nothing: the
`login` queue is still absent. -/
theorem gated_call_throws_when_shadowed :
    addToQueue "hasOwnProperty" .changeName [.str "Alice", .str "", .fn 1] sampleBot
        = .ok sampleShadowed
      ∧ sampleShadowed.loggedIn = false
      ∧ (GatedCall.changeName (.str "Alice") (.str "") (.fn 1)).run sampleShadowed
        = .threw shadowedError sampleShadowed
      ∧ sampleShadowed.queue "login" = none := by
  decide

/-- C2 (amended): on a bot with `loggedIn = false` on which no queue named
`hasOwnProperty` has been created, a gated call returns normally after
appending exactly one entry (the method with the full argument list of the
call, callback included) to the end of the `login` queue; every other queue,
the trace (so no client call, no callback call, no event), `displayName`,
`loggedIn` and every other field are unchanged. -/
theorem gated_call_deferred (c : GatedCall) (s : Bot) (h : s.loggedIn = false)
    (hns : s.queue "hasOwnProperty" = none) :
    ∃ s', c.run s = .ok s'
      ∧ s'.queue "login" = some ((s.queue "login").getD [] ++ [c.entry])
      ∧ (∀ q, q ≠ "login" → s'.queue q = s.queue q)
      ∧ s'.trace = s.trace
      ∧ s'.displayName = s.displayName
      ∧ s'.loggedIn = s.loggedIn
      ∧ s' = { s with delayedTasks := s'.delayedTasks } := by
  refine ⟨_, run_unauthenticated c s h hns, ?_, ?_, rfl, rfl, rfl, rfl⟩
  · rw [queue_login, getQueue_setQueue]
  · intro q hq
    simp only [Bot.queue]
    split
    · rfl
    · exact getQueue_setQueue_ne _ _ _ _ hq

/-- Witness of C2 (amended): `changeName("Alice", "", cb)` on a freshly constructed
bot. -/
theorem gated_call_deferred_witness :
    ∃ s', (GatedCall.changeName (.str "Alice") (.str "") (.fn 1)).run sampleBot = .ok s'
      ∧ s'.queue "login" = some ((sampleBot.queue "login").getD []
          ++ [(GatedCall.changeName (.str "Alice") (.str "") (.fn 1)).entry])
      ∧ (∀ q, q ≠ "login" → s'.queue q = sampleBot.queue q)
      ∧ s'.trace = sampleBot.trace
      ∧ s'.displayName = sampleBot.displayName
      ∧ s'.loggedIn = sampleBot.loggedIn
      ∧ s' = { sampleBot with delayedTasks := s'.delayedTasks } :=
  gated_call_deferred (.changeName (.str "Alice") (.str "") (.fn 1)) sampleBot rfl rfl

/-! ## Lemmas on the event bridge -/

theorem Handler.run_eq (h : Handler) (args : List Val) (s : Bot) :
    h.run args s = { s with trace := s.trace ++ h.effects args } := by
  cases h <;> simp [Handler.run, Handler.effects, Bot.record]

theorem foldl_run_eq (args : List Val) (ls : List Listener) :
    ∀ s : Bot, ls.foldl (fun s l => l.handler.run args s) s
      = { s with trace := s.trace ++ ls.flatMap fun l => l.handler.effects args } := by
  induction ls with
  | nil => intro s; simp
  | cons l ls ih =>
    intro s
    rw [List.foldl_cons, ih, Handler.run_eq]
    simp

theorem sourceTrace_eq (source : Nat) (event : String) (args : List Val) (s : Bot) :
    sourceTrace source event args s
      = (s.listeners.filter fun l => l.source = source ∧ l.event = event).flatMap
          fun l => l.handler.effects args := by
  simp [sourceTrace, sourceEmit, foldl_run_eq]

theorem outward_append (t u : List Effect) : outward (t ++ u) = outward t ++ outward u := by
  induction t with
  | nil => rfl
  | cons e t ih => cases e <;> simp [outward, ih]

theorem emissions_append (event : String) (t u : List Effect) :
    emissions event (t ++ u) = emissions event t + emissions event u := by
  simp [emissions, outward_append]

theorem outward_bridgeTrace (source : Nat) (table : List (String × Handler)) :
    outward (bridgeTrace source table) = [] := by
  induction table with
  | nil => rfl
  | cons eh rest ih => simpa [bridgeTrace, outward] using ih

theorem outward_callTrace (f : Val) : outward (callTrace f) = [] := by
  cases f <;> rfl

theorem outward_loginPrelude (s : Bot) (cookies : Option Cookies) :
    outward (loginPrelude s cookies) = [("loggedIn", [.self])] := by
  cases cookies <;> rfl

theorem emptied_username (s : Bot) (q : String) : (s.emptied q).username = s.username := by
  unfold Bot.emptied; split <;> rfl

theorem emptied_community (s : Bot) (q : String) : (s.emptied q).community = s.community := by
  unfold Bot.emptied; split <;> rfl

theorem emptied_client (s : Bot) (q : String) : (s.emptied q).client = s.client := by
  unfold Bot.emptied; split <;> rfl

theorem emptied_manager (s : Bot) (q : String) :
    (s.emptied q).TradeOfferManager = s.TradeOfferManager := by
  unfold Bot.emptied; split <;> rfl

theorem emptied_store (s : Bot) (q : String) : (s.emptied q).store = s.store := by
  unfold Bot.emptied; split <;> rfl

theorem emptied_nextId (s : Bot) (q : String) : (s.emptied q).nextId = s.nextId := by
  unfold Bot.emptied; split <;> rfl

theorem loginTrace_congr (s s' : Bot) (cookies : Option Cookies) (cs : List GatedCall)
    (f : Val) (hu : s'.username = s.username) (hc : s'.community = s.community)
    (hm : s'.TradeOfferManager = s.TradeOfferManager) (hs : s'.store = s.store) :
    loginTrace s' cookies cs f = loginTrace s cookies cs f := by
  simp only [loginTrace, loginPrelude, hu, hc, hm, hs]

theorem loginBridge_congr (s s' : Bot) (hc : s'.community = s.community)
    (hm : s'.TradeOfferManager = s.TradeOfferManager) : loginBridge s' = loginBridge s := by
  simp only [loginBridge, hc, hm]

theorem emissions_loginTrace (s : Bot) (cookies : Option Cookies) (cs : List GatedCall)
    (f : Val) : emissions "loggedIn" (loginTrace s cookies cs f) = 1 := by
  have h : ∀ cs : List GatedCall,
      outward (cs.flatMap (GatedCall.replay s.community s.TradeOfferManager)) = [] := by
    intro cs
    induction cs with
    | nil => rfl
    | cons c cs ih =>
      rw [List.flatMap_cons, outward_append, ih]
      cases c <;> rfl
  simp [loginTrace, emissions, outward_append, outward_bridgeTrace, outward_callTrace,
    outward_loginPrelude, h]

/-- Field-by-field description of the bot after `loggedInAccount` when the
`login` queue holds the deferred gated calls `cs`. -/
theorem loggedInAccount_fields (cs : List GatedCall) (s : Bot) (cookies : Option Cookies)
    (sessionID : Option String) (callbackErrorOnly : Val) (fuel : Nat)
    (hns : s.queue "hasOwnProperty" = none)
    (hq : (s.queue "login").getD [] = cs.map GatedCall.entry) (hFuel : cs.length + 2 ≤ fuel) :
    ∃ s1, (loggedInAccount fuel cookies sessionID callbackErrorOnly s).bot = some s1
      ∧ s1.cookies = cookies ∧ s1.sessionID = sessionID ∧ s1.loggedIn = true
      ∧ s1.listeners = s.listeners ++ loginBridge s
      ∧ s1.trace = s.trace ++ loginTrace s cookies cs callbackErrorOnly
      ∧ (s1.queue "login").getD [] = []
      ∧ s1.username = s.username ∧ s1.community = s.community ∧ s1.client = s.client
      ∧ s1.TradeOfferManager = s.TradeOfferManager ∧ s1.store = s.store
      ∧ s1.nextId = s.nextId := by
  refine ⟨_, loggedInAccount_gated cs s cookies sessionID callbackErrorOnly fuel hns hq hFuel,
    rfl, rfl, rfl, rfl, rfl, ?_, emptied_username s _, emptied_community s _,
    emptied_client s _, emptied_manager s _, emptied_store s _, emptied_nextId s _⟩
  have := queue_emptied s "login"
  simpa [Bot.queue] using this

theorem queue_emptied_ne (s : Bot) (q q' : String) (h : q ≠ q') :
    (s.emptied q).queue q' = s.queue q' := by
  unfold Bot.emptied
  split
  · exact queue_setQueue_ne s q q' [] h
  · rfl

/-- A login leaves `delayedTasks` without a queue named `hasOwnProperty` when
there was none before. -/
theorem loggedInAccount_unshadowed (cs : List GatedCall) (s s1 : Bot)
    (cookies : Option Cookies) (sessionID : Option String) (callbackErrorOnly : Val)
    (fuel : Nat) (hns : s.queue "hasOwnProperty" = none)
    (hq : (s.queue "login").getD [] = cs.map GatedCall.entry) (hFuel : cs.length + 2 ≤ fuel)
    (h : (loggedInAccount fuel cookies sessionID callbackErrorOnly s).bot = some s1) :
    s1.queue "hasOwnProperty" = none := by
  rw [loggedInAccount_gated cs s cookies sessionID callbackErrorOnly fuel hns hq hFuel] at h
  injection h with h
  subst h
  have := queue_emptied_ne s "login" "hasOwnProperty" (by decide)
  rw [hns] at this
  exact this

/-! ## Order of the `loggedIn` event -/

/-- C3 (evaluation at the failing input): with `changeName("Alice", "", cb)`
deferred, `loggedInAccount` emits `loggedIn` as its third action, before the
deferred call is applied and before any bridge listener is attached. -/
theorem loggedIn_emitted_before_drain :
    changeName (.str "Alice") (.str "") (.fn 1) sampleBot = .ok sampleQueued
    ∧ ∃ s2, loggedInAccount 3 (some ["c"]) (some "sid") (.fn 9) sampleQueued = .ok s2
      ∧ s2.trace =
        [.friendsLogin, .log "debug" [.str "Logged into %j", .str "bot"],
         .emit "loggedIn" [.self],
         .setCookies 0 ["c"], .setCookies 3 ["c"], .setCookiesProbe 2 ["c"],
         .apply .changeName [.str "Alice", .str "", .fn 1],
         .editProfile 0 (.str "Alice") (.str "Alice") (.fn 1),
         .on 0 "chatTyping" .chatTyping, .on 0 "chatLoggedOn" .chatLoggedOn,
         .on 0 "chatLogOnFailed" .chatLogOnFailed, .on 0 "chatMessage" .chatMessage,
         .on 0 "sessionExpired" .sessionExpired,
         .on 2 "sentOfferChanged" .offerChanged,
         .on 2 "receivedOfferChanged" .receivedOfferChanged,
         .on 2 "offerList" .offerList, .on 2 "newOffer" .newOffer,
         .on 2 "sentOfferChanged" .sentOfferChanged,
         .on 2 "realTimeTradeConfirmationRequired" .realTimeTradeConfirmationRequired,
         .on 2 "realTimeTradeCompleted" .realTimeTradeCompleted,
         .on 2 "sentOfferCanceled" .sentOfferCanceled,
         .call 9 [.undefined]] :=
  ⟨rfl, _, rfl, rfl⟩

/-! ## Repeated login -/

/-- C4 (counterexample): two calls of `loggedInAccount` with the same cookies and
session id on a freshly constructed bot emit `loggedIn` twice, and afterwards one
`chatTyping` of the community instance yields two outward `chatTyping` events
where it yielded one after the first call. -/
theorem double_login_duplicates :
    loggedInAccount 2 (some ["c"]) (some "sid") (.fn 9) sampleBot = .ok sampleLoggedIn
      ∧ loggedInAccount 2 (some ["c"]) (some "sid") (.fn 9) sampleLoggedIn
          = .ok sampleLoggedInTwice
      ∧ emissions "loggedIn" sampleLoggedInTwice.trace = 2
      ∧ sampleLoggedInTwice.listeners ≠ sampleLoggedIn.listeners
      ∧ sourceTrace 0 "chatTyping" [.obj 7] sampleLoggedIn = [.emit "chatTyping" [.obj 7]]
      ∧ sourceTrace 0 "chatTyping" [.obj 7] sampleLoggedInTwice
          = [.emit "chatTyping" [.obj 7], .emit "chatTyping" [.obj 7]] := by
  decide

/-- C4 (amended): two calls of `loggedInAccount` in a row with the same cookies
and session id on a bot whose `login` queue is empty and on which no queue named
`hasOwnProperty` has been created keep the stored cookies and session id of the
first call, but each call emits `loggedIn` once (two emissions in total) and
each call attaches one more full set of bridge listeners, so that an underlying
event of a source that had no listener before the first call yields after the
second call twice the outward events it yielded after the first. -/
theorem double_login (s : Bot) (cookies : Option Cookies) (sessionID : Option String)
    (cb1 cb2 : Val) (fuel : Nat) (hns : s.queue "hasOwnProperty" = none)
    (hq : (s.queue "login").getD [] = []) (hFuel : 2 ≤ fuel) :
    ∃ s1 s2, (loggedInAccount fuel cookies sessionID cb1 s).bot = some s1
      ∧ (loggedInAccount fuel cookies sessionID cb2 s1).bot = some s2
      ∧ s1.cookies = cookies ∧ s1.sessionID = sessionID
      ∧ s2.cookies = s1.cookies ∧ s2.sessionID = s1.sessionID
      ∧ emissions "loggedIn" (s1.trace.drop s.trace.length) = 1
      ∧ emissions "loggedIn" (s2.trace.drop s.trace.length) = 2
      ∧ s1.listeners = s.listeners ++ loginBridge s
      ∧ s2.listeners = s1.listeners ++ loginBridge s
      ∧ ∀ (source : Nat) (event : String) (args : List Val),
          (∀ l ∈ s.listeners, l.source ≠ source) →
          sourceTrace source event args s2
            = sourceTrace source event args s1 ++ sourceTrace source event args s1 := by
  obtain ⟨s1, h1, hc1, hs1, -, hl1, ht1, hq1, hu1, hco1, -, hm1, hst1, -⟩ :=
    loggedInAccount_fields [] s cookies sessionID cb1 fuel hns (by simpa using hq)
      (by simpa using hFuel)
  have hns1 := loggedInAccount_unshadowed [] s s1 cookies sessionID cb1 fuel hns
    (by simpa using hq) (by simpa using hFuel) h1
  obtain ⟨s2, h2, hc2, hs2, -, hl2, ht2, -⟩ :=
    loggedInAccount_fields [] s1 cookies sessionID cb2 fuel hns1 (by simpa using hq1)
      (by simpa using hFuel)
  rw [loginTrace_congr s s1 _ _ _ hu1 hco1 hm1 hst1] at ht2
  rw [loginBridge_congr s s1 hco1 hm1] at hl2
  refine ⟨s1, s2, h1, h2, hc1, hs1, by rw [hc2, hc1], by rw [hs2, hs1], ?_, ?_, hl1, hl2, ?_⟩
  · rw [ht1, List.drop_left, emissions_loginTrace]
  · rw [ht2, ht1, List.append_assoc, List.drop_left, emissions_append, emissions_loginTrace,
      emissions_loginTrace]
  · intro source event args hfresh
    have hnil : s.listeners.filter (fun l => l.source = source ∧ l.event = event) = [] := by
      rw [List.filter_eq_nil_iff]
      intro l hl
      simp [hfresh l hl]
    simp only [sourceTrace_eq, hl2, hl1, List.filter_append, hnil, List.nil_append,
      List.flatMap_append]

/-- Witness of C4 (amended): a freshly constructed bot. -/
theorem double_login_witness :
    ∃ s1 s2, (loggedInAccount 2 (some ["c"]) (some "sid") (.fn 9) sampleBot).bot = some s1
      ∧ (loggedInAccount 2 (some ["c"]) (some "sid") (.fn 8) s1).bot = some s2
      ∧ s1.cookies = some ["c"] ∧ s1.sessionID = some "sid"
      ∧ s2.cookies = s1.cookies ∧ s2.sessionID = s1.sessionID
      ∧ emissions "loggedIn" (s1.trace.drop sampleBot.trace.length) = 1
      ∧ emissions "loggedIn" (s2.trace.drop sampleBot.trace.length) = 2
      ∧ s1.listeners = sampleBot.listeners ++ loginBridge sampleBot
      ∧ s2.listeners = s1.listeners ++ loginBridge sampleBot
      ∧ ∀ (source : Nat) (event : String) (args : List Val),
          (∀ l ∈ sampleBot.listeners, l.source ≠ source) →
          sourceTrace source event args s2
            = sourceTrace source event args s1 ++ sourceTrace source event args s1 :=
  double_login sampleBot (some ["c"]) (some "sid") (.fn 9) (.fn 8) 2 rfl rfl (by decide)

/-! ## Failure, re-entrancy and the empty queue -/

theorem emptied_of_empty (s : Bot) (q : String) (h : (s.queue q).getD [] = []) :
    s.emptied q = s := by
  cases hsq : s.queue q with
  | none => simp [Bot.emptied, hsq]
  | some es =>
    rw [hsq] at h
    simp only [Option.getD_some] at h
    subst h
    have hne := queue_some_ne hsq
    rw [queue_eq_getQueue hne] at hsq
    simp only [Bot.emptied, queue_eq_getQueue hne, hsq, setQueue_self _ _ _ hsq]

/-- C5 (counterexample): queue `jobs` holds a throwing entry followed by a
deferred `changeName`; `processQueue` throws the entry's error, the later entry
is not applied and stays in the queue, and the completion callback is not
called. -/
theorem drain_aborts_on_failure :
    addToQueue "jobs" (.raise (.error "boom")) [] sampleBot
        = .ok { sampleBot with
            delayedTasks := [("jobs", [{ fn := .raise (.error "boom"), params := [] }])] }
      ∧ addToQueue "jobs" .changeName [.str "Alice", .str "", .fn 1]
          { sampleBot with
            delayedTasks := [("jobs", [{ fn := .raise (.error "boom"), params := [] }])] }
        = .ok sampleFailing
      ∧ processQueue 3 "jobs" (.user (.fn 9)) sampleFailing
        = .threw (.error "boom")
            { sampleBot with
              delayedTasks := [("jobs", [sampleEntry])],
              trace := [.apply (.raise (.error "boom")) []] } := by
  decide

/-- C5 (amended): on an authenticated bot on which no queue named
`hasOwnProperty` has been created and whose queue holds deferred gated calls up
to position i, if the entry at position i throws when it is invoked (on the bot
as the earlier entries left it, with entry i removed from the queue),
`processQueue` (given the evaluation budget of the entry plus that of the
earlier entries) throws the same error and leaves the bot exactly as the failing
entry left it: the entries before position i have been applied in order,
`processQueue` applies nothing after the failing entry, does not empty the queue
and does not call the completion callback.  When the failing entry does nothing
but throw, the entries after it are still in the queue, not applied. -/
theorem drain_stops_at_failure (q : String) (pre : List GatedCall) (e : Entry)
    (post : List Entry) (v : Val) (sT : Bot) (k : Callback) (f : Nat) (s : Bot)
    (hns : s.queue "hasOwnProperty" = none) (hIn : s.loggedIn = true)
    (hq : s.queue q = some (pre.map GatedCall.entry ++ e :: post))
    (hThrow : invoke (f + 1) e
        { s with
          delayedTasks := setQueue s.delayedTasks q post,
          trace := s.trace ++ pre.flatMap (GatedCall.replay s.community s.TradeOfferManager) }
      = .threw v sT) :
    processQueue (f + pre.length + 3) q k s = .threw v sT
    ∧ ∀ w, e.fn = .raise w →
        v = w ∧ sT = { s with
          delayedTasks := setQueue s.delayedTasks q post,
          trace := s.trace ++ (pre.flatMap (GatedCall.replay s.community s.TradeOfferManager)
            ++ [.apply e.fn e.params]) } := by
  have hne := queue_some_ne hq
  have hh : s.owns q = true := by simp [Bot.owns, hq]
  have hF : f + pre.length + 3 = ((f + 1 + 1) + pre.length) + 1 := by omega
  refine ⟨?_, ?_⟩
  · rw [hF, processQueue, hasQueue_ok s q hns]
    dsimp only
    rw [if_pos hh, drainLoop_gated_front q _ pre (f + 1 + 1) s hIn (by omega) hq]
    rw [drainLoop, queue_setQueue _ _ _ _ hne]
    simp only [setQueue_setQueue]
    rw [hThrow]
  · intro w hw
    rw [invoke] at hThrow
    simp only [hw, Bot.record] at hThrow
    injection hThrow with hv hs
    exact ⟨hv.symm, by rw [← hs]; simp [hw]⟩

/-- Witness of C5 (amended): a deferred call, then a failing entry, then another
deferred call, on an authenticated bot; once with an entry that does nothing
but throw (the last entry stays queued), once with an entry that throws after
a nested `processQueue` of the same queue (the nested drain has applied the
last entry). -/
theorem drain_stops_at_failure_witness :
    (processQueue (0 + [GatedCall.changeName (.str "Alice") (.str "") (.fn 1)].length + 3)
          "jobs" (.user (.fn 9)) (sampleJobs sampleRaise)
        = .threw (.error "boom") sampleRaiseThrown
      ∧ ∀ w, sampleRaise.fn = .raise w →
          Val.error "boom" = w ∧ sampleRaiseThrown
            = { sampleJobs sampleRaise with
                delayedTasks := setQueue (sampleJobs sampleRaise).delayedTasks "jobs" [sampleEntry],
                trace := (sampleJobs sampleRaise).trace
                  ++ ([GatedCall.changeName (.str "Alice") (.str "") (.fn 1)].flatMap
                      (GatedCall.replay (sampleJobs sampleRaise).community
                        (sampleJobs sampleRaise).TradeOfferManager)
                    ++ [.apply sampleRaise.fn sampleRaise.params]) })
    ∧ processQueue (3 + [GatedCall.changeName (.str "Alice") (.str "") (.fn 1)].length + 3)
          "jobs" (.user (.fn 9)) (sampleJobs sampleRedrain)
        = .threw (.typeError "callback is not a function") sampleRedrainThrown :=
  ⟨drain_stops_at_failure "jobs" [.changeName (.str "Alice") (.str "") (.fn 1)] sampleRaise
      [sampleEntry] (.error "boom") sampleRaiseThrown (.user (.fn 9)) 0
      (sampleJobs sampleRaise) rfl rfl rfl (by decide),
    (drain_stops_at_failure "jobs" [.changeName (.str "Alice") (.str "") (.fn 1)] sampleRedrain
      [sampleEntry] (.typeError "callback is not a function") sampleRedrainThrown
      (.user (.fn 9)) 3 (sampleJobs sampleRedrain) rfl rfl rfl (by decide)).1⟩

/-- C6 (counterexample): queue `jobs` holds an entry that calls
`processQueue("jobs", cb5)` followed by a deferred `changeName`; the nested
drain applies the `changeName` entry (it is applied before the nested callback
`cb5` runs), so the nested call does dispatch an entry. -/
theorem nested_drain_dispatches :
    addToQueue "jobs" (.processQueue "jobs" (.fn 5)) [] sampleBot
        = .ok { sampleBot with
            delayedTasks := [("jobs", [{ fn := .processQueue "jobs" (.fn 5), params := [] }])] }
      ∧ addToQueue "jobs" .changeName [.str "Alice", .str "", .fn 1]
          { sampleBot with
            delayedTasks := [("jobs", [{ fn := .processQueue "jobs" (.fn 5), params := [] }])] }
        = .ok sampleNested
      ∧ invoke 4 { fn := .processQueue "jobs" (.fn 5), params := [] }
          { sampleNested with delayedTasks := [("jobs", [sampleEntry])] }
        = .ok { sampleBot with
            delayedTasks := [("jobs", []), ("login", [sampleEntry])],
            trace := [.apply (.processQueue "jobs" (.fn 5)) [],
                      .apply .changeName [.str "Alice", .str "", .fn 1],
                      .call 5 [.undefined]] }
      ∧ processQueue 6 "jobs" (.user (.fn 9)) sampleNested
        = .ok { sampleBot with
            delayedTasks := [("jobs", []), ("login", [sampleEntry])],
            trace := [.apply (.processQueue "jobs" (.fn 5)) [],
                      .apply .changeName [.str "Alice", .str "", .fn 1],
                      .call 5 [.undefined], .call 9 [.undefined]] } := by
  decide

/-- C6 (amended): on an authenticated bot on which no queue named
`hasOwnProperty` has been created and whose queue `q` holds an entry that calls
`processQueue(q, cb)` followed by deferred gated calls, the nested drain applies
all the remaining entries itself, in order and once each, and calls `cb`; after
it returns the outer drain finds the queue empty, applies nothing more and calls
its own completion callback. -/
theorem nested_drain (q : String) (cb : Nat) (params : List Val) (rest : List GatedCall)
    (k : Callback) (fuel : Nat) (s : Bot) (hns : s.queue "hasOwnProperty" = none)
    (hIn : s.loggedIn = true)
    (hq : s.queue q
      = some ({ fn := .processQueue q (.fn cb), params := params } :: rest.map GatedCall.entry))
    (hFuel : rest.length + 5 ≤ fuel) :
    invoke (fuel - 2) { fn := .processQueue q (.fn cb), params := params }
        { s with delayedTasks := setQueue s.delayedTasks q (rest.map GatedCall.entry) }
      = .ok { s with
          delayedTasks := setQueue s.delayedTasks q [],
          trace := s.trace ++ ([.apply (.processQueue q (.fn cb)) params]
            ++ rest.flatMap (GatedCall.replay s.community s.TradeOfferManager)
            ++ [.call cb [.undefined]]) }
    ∧ processQueue fuel q k s
      = runCallback k { s with
          delayedTasks := setQueue s.delayedTasks q [],
          trace := s.trace ++ ([.apply (.processQueue q (.fn cb)) params]
            ++ rest.flatMap (GatedCall.replay s.community s.TradeOfferManager)
            ++ [.call cb [.undefined]]) } := by
  have hne := queue_some_ne hq
  obtain ⟨f, rfl⟩ : ∃ f, fuel = f + 1 + 1 + 1 := ⟨fuel - 3, by omega⟩
  have hinner : invoke (f + 1) { fn := .processQueue q (.fn cb), params := params }
        { s with delayedTasks := setQueue s.delayedTasks q (rest.map GatedCall.entry) }
      = .ok { s with
          delayedTasks := setQueue s.delayedTasks q [],
          trace := s.trace ++ ([.apply (.processQueue q (.fn cb)) params]
            ++ rest.flatMap (GatedCall.replay s.community s.TradeOfferManager)
            ++ [.call cb [.undefined]]) } := by
    rw [invoke]
    simp only [Bot.record]
    rw [processQueue_gated q rest _ f _ (unshadowed_setQueue s q _ _ _ hns hq)
      (by simpa using hIn) (by rw [queue_setQueue _ _ _ _ hne]; rfl) (by omega)]
    have he : ∀ t : List Effect,
        Bot.emptied { s with delayedTasks := setQueue s.delayedTasks q (rest.map GatedCall.entry),
                             trace := t } q
          = { s with delayedTasks := setQueue s.delayedTasks q [], trace := t } := by
      intro t
      simp only [Bot.emptied, queue_setQueue _ _ _ _ hne, setQueue_setQueue]
    rw [he]
    simp [runCallback, callVal, Bot.record]
  refine ⟨by simpa using hinner, ?_⟩
  have hh : s.owns q = true := by simp [Bot.owns, hq]
  rw [processQueue, hasQueue_ok s q hns]
  dsimp only
  rw [if_pos hh, drainLoop]
  simp only [hq]
  rw [hinner]
  simp only
  rw [drainLoop_nil _ _ _ (by rw [queue_setQueue _ _ _ _ hne]; rfl)]

/-- Witness of C6 (amended): an authenticated bot with the re-entrant entry
followed by one deferred call. -/
theorem nested_drain_witness :
    invoke (6 - 2) { fn := .processQueue "jobs" (.fn 5), params := [] }
        { { sampleLoggedIn with delayedTasks := sampleNested.delayedTasks } with
          delayedTasks := setQueue sampleNested.delayedTasks "jobs"
            ([GatedCall.changeName (.str "Alice") (.str "") (.fn 1)].map GatedCall.entry) }
      = .ok { { sampleLoggedIn with delayedTasks := sampleNested.delayedTasks } with
          delayedTasks := setQueue sampleNested.delayedTasks "jobs" [],
          trace := sampleLoggedIn.trace ++ ([.apply (.processQueue "jobs" (.fn 5)) []]
            ++ [GatedCall.changeName (.str "Alice") (.str "") (.fn 1)].flatMap
              (GatedCall.replay sampleLoggedIn.community sampleLoggedIn.TradeOfferManager)
            ++ [.call 5 [.undefined]]) }
    ∧ processQueue 6 "jobs" (.user (.fn 9))
        { sampleLoggedIn with delayedTasks := sampleNested.delayedTasks }
      = runCallback (.user (.fn 9))
          { { sampleLoggedIn with delayedTasks := sampleNested.delayedTasks } with
            delayedTasks := setQueue sampleNested.delayedTasks "jobs" [],
            trace := sampleLoggedIn.trace ++ ([.apply (.processQueue "jobs" (.fn 5)) []]
              ++ [GatedCall.changeName (.str "Alice") (.str "") (.fn 1)].flatMap
                (GatedCall.replay sampleLoggedIn.community sampleLoggedIn.TradeOfferManager)
              ++ [.call 5 [.undefined]]) } :=
  nested_drain "jobs" 5 [] [.changeName (.str "Alice") (.str "") (.fn 1)] (.user (.fn 9)) 6
    { sampleLoggedIn with delayedTasks := sampleNested.delayedTasks } rfl rfl rfl (by decide)

/-- C7 (counterexample): on the bot that `addToQueue("hasOwnProperty", ...)`
leaves, queue `jobs` was never created, yet `processQueue("jobs", cb)` throws a
`TypeError` at its own-property test and does not call its completion callback:
the trace is still empty. -/
theorem drain_throws_when_shadowed :
    addToQueue "hasOwnProperty" .changeName [.str "Alice", .str "", .fn 1] sampleBot
        = .ok sampleShadowed
      ∧ sampleShadowed.queue "jobs" = none
      ∧ processQueue 2 "jobs" (.user (.fn 9)) sampleShadowed
        = .threw shadowedError sampleShadowed
      ∧ sampleShadowed.trace = [] := by
  decide

/-- C7 (amended): on a bot on which no queue named `hasOwnProperty` has been
created, when queue `q` is empty or was never created, `processQueue` (with an
evaluation budget of at least 2) applies no entry and changes nothing before it
calls its completion callback; with a caller-supplied function as callback it
returns normally, and the only change to the bot is one recorded call of that
function with the single argument `undefined`. -/
theorem drain_empty_queue (s : Bot) (q : String) (k : Callback) (id : Nat) (fuel : Nat)
    (hns : s.queue "hasOwnProperty" = none) (hq : (s.queue q).getD [] = [])
    (hFuel : 2 ≤ fuel) :
    processQueue fuel q k s = runCallback k s
    ∧ processQueue fuel q (.user (.fn id)) s
        = .ok { s with trace := s.trace ++ [.call id [.undefined]] } := by
  have h : ∀ k, processQueue fuel q k s = runCallback k s := by
    intro k
    obtain ⟨f, rfl⟩ : ∃ f, fuel = f + 1 + 1 := ⟨fuel - 2, by omega⟩
    rw [processQueue, hasQueue_ok s q hns, drainLoop_nil _ _ _ hq]
    simp
  exact ⟨h k, by rw [h]; rfl⟩

/-- Witness of C7 (amended): queue `jobs` was never created on a freshly
constructed bot. -/
theorem drain_empty_queue_witness :
    processQueue 2 "jobs" (.loginDone .undefined) sampleBot
        = runCallback (.loginDone .undefined) sampleBot
    ∧ processQueue 2 "jobs" (.user (.fn 9)) sampleBot
        = .ok { sampleBot with trace := sampleBot.trace ++ [.call 9 [.undefined]] } :=
  drain_empty_queue sampleBot "jobs" (.loginDone .undefined) 9 2 rfl rfl (by decide)

/-! ## The session state is touched by login and logout only -/

theorem addToQueue_session (q : String) (f : Fn) (d : List Val) (s s' : Bot)
    (h : (addToQueue q f d s).bot = some s') : s'.session = s.session := by
  unfold addToQueue at h
  split at h
  · simp only [Outcome.bot, Option.some.injEq] at h; subst h; rfl
  · split at h
    · simp only [Outcome.bot, Option.some.injEq] at h; subst h; rfl
    · split at h <;> (simp only [Outcome.bot, Option.some.injEq] at h; subst h; rfl)

theorem changeName_session (a b c : Val) (s s' : Bot)
    (h : (changeName a b c s).bot = some s') : s'.session = s.session := by
  unfold changeName at h
  split at h
  · exact addToQueue_session _ _ _ _ _ h
  · simp only [Outcome.bot, Option.some.injEq] at h; subst h; rfl

theorem getInventory_session (a b c d : Val) (s s' : Bot)
    (h : (getInventory a b c d s).bot = some s') : s'.session = s.session := by
  unfold getInventory at h
  split at h
  · exact addToQueue_session _ _ _ _ _ h
  · simp only [Outcome.bot, Option.some.injEq] at h; subst h; rfl

theorem getUserInventory_session (a b c d e : Val) (s s' : Bot)
    (h : (getUserInventory a b c d e s).bot = some s') : s'.session = s.session := by
  unfold getUserInventory at h
  split at h
  · exact addToQueue_session _ _ _ _ _ h
  · simp only [Outcome.bot, Option.some.injEq] at h; subst h; rfl

theorem callVal_session (f : Val) (args : List Val) (s s' : Bot)
    (h : (callVal f args s).bot = some s') : s'.session = s.session := by
  unfold callVal at h
  split at h <;> (simp only [Outcome.bot, Option.some.injEq] at h; subst h; rfl)

theorem runCallback_session (k : Callback) (s s' : Bot)
    (h : (runCallback k s).bot = some s') : s'.session = s.session := by
  cases k with
  | user f => exact callVal_session _ _ _ _ h
  | loginDone cb =>
    simp only [runCallback, attach_eq] at h
    split at h
    · exact (callVal_session _ _ _ _ h).trans rfl
    · simp only [Outcome.bot, Option.some.injEq] at h; subst h; rfl

theorem exec_session (fuel : Nat) :
    (∀ e s s', (invoke fuel e s).bot = some s' → s'.session = s.session)
    ∧ (∀ q s s', (drainLoop fuel q s).bot = some s' → s'.session = s.session)
    ∧ (∀ q k s s', (processQueue fuel q k s).bot = some s' → s'.session = s.session) := by
  induction fuel with
  | zero => simp [invoke, drainLoop, processQueue, Outcome.bot]
  | succ n ih =>
    obtain ⟨ihI, ihD, ihP⟩ := ih
    refine ⟨?_, ?_, ?_⟩
    · intro e s s' h
      obtain ⟨f, p⟩ := e
      cases f with
      | changeName =>
        simp only [invoke] at h
        exact (changeName_session _ _ _ _ _ h).trans rfl
      | getInventory =>
        simp only [invoke] at h
        exact (getInventory_session _ _ _ _ _ _ h).trans rfl
      | getUserInventory =>
        simp only [invoke] at h
        exact (getUserInventory_session _ _ _ _ _ _ _ h).trans rfl
      | raise v =>
        simp only [invoke, Outcome.bot, Option.some.injEq] at h
        subst h; rfl
      | processQueue q cb =>
        simp only [invoke] at h
        exact (ihP _ _ _ _ h).trans rfl
      | addToQueue q g d =>
        simp only [invoke] at h
        exact (addToQueue_session _ _ _ _ _ h).trans rfl
    · intro q s s' h
      rw [drainLoop] at h
      split at h
      · rename_i e rest _
        cases hi : invoke n e { s with delayedTasks := setQueue s.delayedTasks q rest } with
        | ok s2 =>
          rw [hi] at h
          have h1 := ihI _ _ s2 (by rw [hi]; rfl)
          have h2 := ihD _ _ _ h
          rw [h2, h1]; rfl
        | threw v s2 =>
          rw [hi] at h
          have h1 := ihI _ _ s2 (by rw [hi]; rfl)
          simp only [Outcome.bot, Option.some.injEq] at h
          rw [← h, h1]; rfl
        | outOfFuel => rw [hi] at h; simp [Outcome.bot] at h
      · simp only [Outcome.bot, Option.some.injEq] at h; subst h; rfl
    · intro q k s s' h
      rw [processQueue] at h
      cases ho : s.hasQueue q with
      | error e =>
        rw [ho] at h
        simp only [Outcome.bot, Option.some.injEq] at h
        subst h; rfl
      | ok own =>
        rw [ho] at h
        dsimp only at h
        by_cases hh : own = true
        · rw [if_pos hh] at h
          cases hd : drainLoop n q s with
          | ok s2 =>
            rw [hd] at h
            have h1 := ihD _ _ s2 (by rw [hd]; rfl)
            have h2 := runCallback_session _ _ _ h
            rw [h2, h1]
          | threw v s2 =>
            rw [hd] at h
            have h1 := ihD _ _ s2 (by rw [hd]; rfl)
            simp only [Outcome.bot, Option.some.injEq] at h
            rw [← h, h1]
          | outOfFuel => rw [hd] at h; simp [Outcome.bot] at h
        · rw [if_neg hh] at h
          exact runCallback_session _ _ _ h

theorem new_session (u p : Val) (d : Details) (st : Option (List (String × Val))) (s0 : Bot)
    (h : Bot.new u p d st = .ok s0) : s0.session = (none, none, false) := by
  unfold Bot.new at h
  cases hv : Bot.validate u p d with
  | error e => simp [hv] at h
  | ok x =>
    cases hn : Bot.named d with
    | error e => simp [hv, hn] at h
    | ok name =>
      simp only [hv, hn, Except.ok.injEq] at h
      subst h
      rfl

theorem sessionInvariant_congr (s s' : Bot) (h : s'.session = s.session)
    (hs : sessionInvariant s) : sessionInvariant s' := by
  simp only [Bot.session, Prod.mk.injEq] at h
  obtain ⟨h1, h2, h3⟩ := h
  simpa only [sessionInvariant, h1, h2, h3] using hs

theorem run_session (c : GatedCall) (s s' : Bot) (h : (c.run s).bot = some s') :
    s'.session = s.session := by
  cases c with
  | changeName a b c => exact changeName_session _ _ _ _ _ h
  | getInventory a b c d => exact getInventory_session _ _ _ _ _ _ h
  | getUserInventory a b c d e => exact getUserInventory_session _ _ _ _ _ _ _ h

theorem step_sessionInvariant (fuel : Nat) (a : Action) (s s' : Bot)
    (ha : a.suppliesSession = true) (hs : sessionInvariant s)
    (h : (a.run fuel s).bot = some s') : sessionInvariant s' := by
  cases a with
  | login cookies sessionID cb =>
    simp only [Action.suppliesSession, Bool.and_eq_true] at ha
    simp only [Action.run, loggedInAccount_eq] at h
    have := (exec_session fuel).2.2 _ _ _ _ h
    simp only [Bot.session, Prod.mk.injEq] at this
    obtain ⟨h1, h2, h3⟩ := this
    simp [sessionInvariant, h1, h2, h3, ha.1, ha.2]
  | logout =>
    simp only [Action.run, Outcome.bot, Option.some.injEq] at h
    subst h
    exact ⟨hs.1, by simp [logoutAccount]⟩
  | call c => exact sessionInvariant_congr _ _ (run_session c s s' h) hs

/-! ## The session invariant -/

/-- C8 (counterexample): on a freshly constructed bot `loggedInAccount` called
without cookies and session id leaves `loggedIn = true` with both absent, and
called with cookies but without session id leaves the cookies present and the
session id absent. -/
theorem login_without_session_artifacts :
    Bot.new (.str "bot") (.str "secret") .undefined none = .ok sampleBot
      ∧ (runActions 2 [.login none none .undefined] sampleBot).map Bot.session
          = some (none, none, true)
      ∧ (runActions 2 [.login (some ["c"]) none .undefined] sampleBot).map Bot.session
          = some (some ["c"], none, true) :=
  ⟨rfl, by decide, by decide⟩

/-- C8 (amended): in every state reached from a freshly constructed bot by a
sequence of `loggedInAccount`, `logoutAccount` and gated calls in which every
`loggedInAccount` is given both cookies and a session id, the stored cookies
and session id are both present or both absent, and `loggedIn = true` implies
that both are present. -/
theorem session_invariant (u p : Val) (d : Details) (st : Option (List (String × Val)))
    (s0 s : Bot) (fuel : Nat) (actions : List Action) (h0 : Bot.new u p d st = .ok s0)
    (hs : ∀ a ∈ actions, a.suppliesSession = true)
    (hrun : runActions fuel actions s0 = some s) : sessionInvariant s := by
  have hinit : sessionInvariant s0 := by
    have := new_session u p d st s0 h0
    simp only [Bot.session, Prod.mk.injEq] at this
    obtain ⟨h1, h2, h3⟩ := this
    simp [sessionInvariant, h1, h2, h3]
  clear h0
  induction actions generalizing s0 with
  | nil =>
    simp only [runActions, Option.some.injEq] at hrun
    subst hrun
    exact hinit
  | cons a rest ih =>
    simp only [runActions] at hrun
    cases hstep : (a.run fuel s0).bot with
    | none => rw [hstep] at hrun; simp at hrun
    | some s1 =>
      rw [hstep] at hrun
      exact ih s1 (fun b hb => hs b (List.mem_cons_of_mem _ hb)) hrun
        (step_sessionInvariant fuel a s0 s1 (hs a (List.mem_cons_self _ _)) hinit hstep)

/-- Witness of C8 (amended): a deferred call, a login with both artifacts, a logout. -/
theorem session_invariant_witness :
    runActions 3 [.call (.changeName (.str "Alice") (.str "") (.fn 1)),
        .login (some ["c"]) (some "sid") (.fn 9), .logout] sampleBot
      = some (logoutAccount
          { sampleLoggedIn with
            delayedTasks := [("login", [])],
            trace := loginTrace sampleBot (some ["c"])
              [.changeName (.str "Alice") (.str "") (.fn 1)] (.fn 9) })
    ∧ sessionInvariant (logoutAccount
        { sampleLoggedIn with
          delayedTasks := [("login", [])],
          trace := loginTrace sampleBot (some ["c"])
            [.changeName (.str "Alice") (.str "") (.fn 1)] (.fn 9) }) :=
  ⟨by decide, session_invariant (.str "bot") (.str "secret") .undefined none sampleBot _ 3
    [.call (.changeName (.str "Alice") (.str "") (.fn 1)),
      .login (some ["c"]) (some "sid") (.fn 9), .logout] rfl (by decide) (by decide)⟩

/-! ## Logout -/

/-- C9 (counterexample): after `loggedInAccount(["c"], "sid", cb)` on a freshly
constructed bot, `logoutAccount` leaves the stored cookies and session id in
place. -/
theorem logout_keeps_session_artifacts :
    loggedInAccount 2 (some ["c"]) (some "sid") (.fn 9) sampleBot = .ok sampleLoggedIn
      ∧ (logoutAccount sampleLoggedIn).session = (some ["c"], some "sid", false) := by
  decide

/-- C9 (amended): for every bot state, after `logoutAccount` the bot has
`loggedIn = false`, its stored cookies and session id are what they were before
(absent only if they were absent), and community, client, TradeOfferManager and
store are four distinct fresh instances: none was allocated before and, when
the state was well formed, none has a listener. -/
theorem logout_resets (s : Bot) (hwf : s.wellFormed) :
    (logoutAccount s).loggedIn = false
      ∧ (logoutAccount s).cookies = s.cookies
      ∧ (logoutAccount s).sessionID = s.sessionID
      ∧ (logoutAccount s).instances = [s.nextId, s.nextId + 1, s.nextId + 2, s.nextId + 3]
      ∧ (∀ i ∈ (logoutAccount s).instances, s.nextId ≤ i ∧ i ∉ s.instances
          ∧ (logoutAccount s).listenersOn i = [])
      ∧ (logoutAccount s).wellFormed := by
  refine ⟨rfl, rfl, rfl, rfl, ?_, ?_⟩
  · intro i hi
    have hge : s.nextId ≤ i := by
      simp only [logoutAccount, Bot.instances, Bot.record, List.mem_cons, List.mem_singleton,
        List.mem_nil_iff, or_false] at hi
      omega
    refine ⟨hge, fun hmem => ?_, ?_⟩
    · have := hwf.1 i hmem
      omega
    · simp only [Bot.listenersOn, List.filter_eq_nil_iff, decide_eq_true_eq]
      intro l hl heq
      have := hwf.2 l hl
      omega
  · refine ⟨fun i hi => ?_, fun l hl => ?_⟩
    · simp only [logoutAccount, Bot.instances, Bot.record, List.mem_cons, List.mem_singleton,
        List.mem_nil_iff, or_false] at hi ⊢
      omega
    · have := hwf.2 l hl
      simp only [logoutAccount, Bot.record]
      omega

/-- Witness of C9 (amended): logout of an authenticated bot. -/
theorem logout_resets_witness :
    (logoutAccount sampleLoggedIn).loggedIn = false
      ∧ (logoutAccount sampleLoggedIn).cookies = sampleLoggedIn.cookies
      ∧ (logoutAccount sampleLoggedIn).sessionID = sampleLoggedIn.sessionID
      ∧ (logoutAccount sampleLoggedIn).instances
          = [sampleLoggedIn.nextId, sampleLoggedIn.nextId + 1, sampleLoggedIn.nextId + 2,
             sampleLoggedIn.nextId + 3]
      ∧ (∀ i ∈ (logoutAccount sampleLoggedIn).instances,
          sampleLoggedIn.nextId ≤ i ∧ i ∉ sampleLoggedIn.instances
            ∧ (logoutAccount sampleLoggedIn).listenersOn i = [])
      ∧ (logoutAccount sampleLoggedIn).wellFormed :=
  logout_resets sampleLoggedIn (by decide)

/-! ## Logout followed by a new login -/

theorem filter_bridgeListeners_self (source : Nat) (table : List (String × Handler)) :
    (bridgeListeners source table).filter (fun l => l.source = source)
      = bridgeListeners source table := by
  simp only [bridgeListeners, List.filter_eq_self, List.mem_map, decide_eq_true_eq]
  rintro l ⟨eh, -, rfl⟩
  rfl

theorem filter_bridgeListeners_ne (source other : Nat) (table : List (String × Handler))
    (h : source ≠ other) :
    (bridgeListeners source table).filter (fun l => l.source = other) = [] := by
  simp only [bridgeListeners, List.filter_eq_nil_iff, List.mem_map, decide_eq_true_eq]
  rintro l ⟨eh, -, rfl⟩
  exact h

theorem sourceTrace_listenersOn (source : Nat) (event : String) (args : List Val) (s : Bot) :
    sourceTrace source event args s
      = ((s.listenersOn source).filter fun l => l.event = event).flatMap
          fun l => l.handler.effects args := by
  rw [sourceTrace_eq, Bot.listenersOn, List.filter_filter]
  congr 1
  apply List.filter_congr
  intro l _
  simp only [Bool.decide_and, Bool.and_comm]

theorem mem_sourceTrace (source : Nat) (event : String) (h : Handler) (args : List Val)
    (s : Bot) (hl : ({ source := source, event := event, handler := h } : Listener) ∈ s.listeners) :
    Effect.emit h.outward ((List.range h.arity).map (arg args))
      ∈ sourceTrace source event args s := by
  rw [sourceTrace_eq, List.mem_flatMap]
  refine ⟨_, List.mem_filter.mpr ⟨hl, by simp⟩, ?_⟩
  simp [Handler.effects]

/-- C10 (counterexample): after login, logout and a new login on a freshly
constructed bot the community and trade-offer manager instances are new (4 and
6), yet a `chatTyping` fired on the discarded community instance 0 and a
`newOffer` fired on the discarded manager instance 2 still produce their
outward events on the bot. -/
theorem discarded_source_still_forwards :
    loggedInAccount 2 (some ["c"]) (some "sid") (.fn 9) sampleBot = .ok sampleLoggedIn
      ∧ (loggedInAccount 2 (some ["c"]) (some "sid") (.fn 9) (logoutAccount sampleLoggedIn)).bot.map
          (fun s => (s.community, s.TradeOfferManager,
            sourceTrace 0 "chatTyping" [.obj 7] s, sourceTrace 2 "newOffer" [.obj 42] s))
        = some (4, 6, [.emit "chatTyping" [.obj 7]], [.emit "newOffer" [.obj 42]]) := by
  decide

/-- C10 (amended): after `loggedInAccount`, `logoutAccount`, `loggedInAccount` on
a well-formed bot whose `login` queue is empty and on which no queue named
`hasOwnProperty` has been created, the newly constructed community and
trade-offer manager instances each carry exactly one set of bridge listeners;
the instances discarded by `logoutAccount` keep their listeners, so an
underlying event fired on a discarded instance produces the same outward events
as before the logout (for example `chatTyping` and `newOffer` are still
forwarded). -/
theorem relogin_bridge (s : Bot) (c1 c2 : Option Cookies) (sid1 sid2 : Option String)
    (cb1 cb2 : Val) (fuel : Nat) (hwf : s.wellFormed)
    (hns : s.queue "hasOwnProperty" = none) (hq : (s.queue "login").getD [] = [])
    (hFuel : 2 ≤ fuel) :
    ∃ s1 s3, (loggedInAccount fuel c1 sid1 cb1 s).bot = some s1
      ∧ (loggedInAccount fuel c2 sid2 cb2 (logoutAccount s1)).bot = some s3
      ∧ s3.community ∉ s.instances ∧ s3.TradeOfferManager ∉ s.instances
      ∧ s3.listenersOn s3.community = bridgeListeners s3.community communityBridge
      ∧ s3.listenersOn s3.TradeOfferManager
          = bridgeListeners s3.TradeOfferManager managerBridge
      ∧ (∀ event args, sourceTrace s.community event args s3
          = sourceTrace s.community event args s1)
      ∧ (∀ event args, sourceTrace s.TradeOfferManager event args s3
          = sourceTrace s.TradeOfferManager event args s1)
      ∧ (∀ args, Effect.emit "chatTyping" [arg args 0]
          ∈ sourceTrace s.community "chatTyping" args s3)
      ∧ (∀ args, Effect.emit "newOffer" [arg args 0]
          ∈ sourceTrace s.TradeOfferManager "newOffer" args s3) := by
  obtain ⟨s1, h1, -, -, -, hl1, -, hq1, -, hco1, -, hm1, -, hn1⟩ :=
    loggedInAccount_fields [] s c1 sid1 cb1 fuel hns (by simpa using hq)
      (by simpa using hFuel)
  have hns1 := loggedInAccount_unshadowed [] s s1 c1 sid1 cb1 fuel hns
    (by simpa using hq) (by simpa using hFuel) h1
  have hq2 : ((logoutAccount s1).queue "login").getD [] = [] := hq1
  have hns2 : (logoutAccount s1).queue "hasOwnProperty" = none := hns1
  obtain ⟨s3, h3, -, -, -, hl3, -, -, -, hco3, -, hm3, -, -⟩ :=
    loggedInAccount_fields [] (logoutAccount s1) c2 sid2 cb2 fuel hns2 (by simpa using hq2)
      (by simpa using hFuel)
  have hc3 : s3.community = s.nextId := by rw [hco3, ← hn1]; rfl
  have hm3' : s3.TradeOfferManager = s.nextId + 2 := by rw [hm3, ← hn1]; rfl
  have hl3' : s3.listeners = s.listeners
      ++ (bridgeListeners s.community communityBridge
        ++ bridgeListeners s.TradeOfferManager managerBridge)
      ++ (bridgeListeners s.nextId communityBridge
        ++ bridgeListeners (s.nextId + 2) managerBridge) := by
    have hl2 : (logoutAccount s1).listeners = s1.listeners := rfl
    have hb2 : loginBridge (logoutAccount s1)
        = bridgeListeners s1.nextId communityBridge
          ++ bridgeListeners (s1.nextId + 2) managerBridge := rfl
    rw [hl3, hl2, hb2, hl1, hn1]
    rfl
  have hc : s.community < s.nextId := hwf.1 _ (by simp [Bot.instances])
  have hm : s.TradeOfferManager < s.nextId := hwf.1 _ (by simp [Bot.instances])
  have hold : ∀ src, src < s.nextId → s3.listenersOn src = s1.listenersOn src := by
    intro src hsrc
    simp only [Bot.listenersOn, hl3', hl1, loginBridge, List.filter_append]
    rw [filter_bridgeListeners_ne s.nextId src _ (by omega),
      filter_bridgeListeners_ne (s.nextId + 2) src _ (by omega)]
    simp
  have hnew : ∀ src, s.nextId ≤ src →
      (s.listeners ++ (bridgeListeners s.community communityBridge
        ++ bridgeListeners s.TradeOfferManager managerBridge)).filter
          (fun l => l.source = src) = [] := by
    intro src hsrc
    simp only [List.filter_append]
    rw [filter_bridgeListeners_ne s.community src _ (by omega),
      filter_bridgeListeners_ne s.TradeOfferManager src _ (by omega)]
    simp only [List.append_nil, List.filter_eq_nil_iff, decide_eq_true_eq]
    intro l hl heq
    have := hwf.2 l hl
    omega
  refine ⟨s1, s3, h1, h3, ?_, ?_, ?_, ?_, ?_, ?_, ?_, ?_⟩
  · intro hmem
    have := hwf.1 _ hmem
    omega
  · intro hmem
    have := hwf.1 _ hmem
    omega
  · rw [hc3]
    simp only [Bot.listenersOn, hl3']
    rw [List.filter_append, hnew _ (le_refl _), List.filter_append, filter_bridgeListeners_self,
      filter_bridgeListeners_ne (s.nextId + 2) s.nextId _ (by omega)]
    simp
  · rw [hm3']
    simp only [Bot.listenersOn, hl3']
    rw [List.filter_append, hnew _ (by omega), List.filter_append, filter_bridgeListeners_self,
      filter_bridgeListeners_ne s.nextId (s.nextId + 2) _ (by omega)]
    simp
  · intro event args
    rw [sourceTrace_listenersOn, sourceTrace_listenersOn, hold _ hc]
  · intro event args
    rw [sourceTrace_listenersOn, sourceTrace_listenersOn, hold _ hm]
  · intro args
    have := mem_sourceTrace s.community "chatTyping" .chatTyping args s3
      (by rw [hl3']; simp [bridgeListeners, communityBridge])
    simpa [Handler.outward, Handler.arity] using this
  · intro args
    have := mem_sourceTrace s.TradeOfferManager "newOffer" .newOffer args s3
      (by rw [hl3']; simp [bridgeListeners, managerBridge])
    simpa [Handler.outward, Handler.arity] using this

/-- Witness of C10 (amended): a freshly constructed bot. -/
theorem relogin_bridge_witness :
    ∃ s1 s3, (loggedInAccount 2 (some ["c"]) (some "sid") (.fn 9) sampleBot).bot = some s1
      ∧ (loggedInAccount 2 (some ["d"]) (some "sid2") (.fn 8) (logoutAccount s1)).bot = some s3
      ∧ s3.community ∉ sampleBot.instances ∧ s3.TradeOfferManager ∉ sampleBot.instances
      ∧ s3.listenersOn s3.community = bridgeListeners s3.community communityBridge
      ∧ s3.listenersOn s3.TradeOfferManager
          = bridgeListeners s3.TradeOfferManager managerBridge
      ∧ (∀ event args, sourceTrace sampleBot.community event args s3
          = sourceTrace sampleBot.community event args s1)
      ∧ (∀ event args, sourceTrace sampleBot.TradeOfferManager event args s3
          = sourceTrace sampleBot.TradeOfferManager event args s1)
      ∧ (∀ args, Effect.emit "chatTyping" [arg args 0]
          ∈ sourceTrace sampleBot.community "chatTyping" args s3)
      ∧ (∀ args, Effect.emit "newOffer" [arg args 0]
          ∈ sourceTrace sampleBot.TradeOfferManager "newOffer" args s3) :=
  relogin_bridge sampleBot (some ["c"]) (some ["d"]) (some "sid") (some "sid2") (.fn 9) (.fn 8) 2
    (by decide) rfl rfl (by decide)

/-! ## Forwarding of underlying events -/

theorem new_fields (u p : Val) (d : Details) (st : Option (List (String × Val))) (s0 : Bot)
    (h : Bot.new u p d st = .ok s0) :
    s0.loggedIn = false ∧ s0.delayedTasks = [] ∧ s0.listeners = [] ∧ s0.community = 0
      ∧ s0.TradeOfferManager = 2 ∧ s0.trace = [] := by
  unfold Bot.new at h
  cases hv : Bot.validate u p d with
  | error e => simp [hv] at h
  | ok x =>
    cases hn : Bot.named d with
    | error e => simp [hv, hn] at h
    | ok name =>
      simp only [hv, hn, Except.ok.injEq] at h
      subst h
      exact ⟨rfl, rfl, rfl, rfl, rfl, rfl⟩

theorem range_map_arg (args : List Val) : (List.range args.length).map (arg args) = args := by
  apply List.ext_getElem
  · simp
  · intro i h1 h2
    simp [arg, List.getElem?_eq_getElem h2]

theorem outward_effects (h : Handler) (args : List Val) :
    outward (h.effects args) = [(h.outward, (List.range h.arity).map (arg args))] := by
  cases h <;> rfl

theorem outward_sourceTrace (source : Nat) (event : String) (args : List Val) (s : Bot) :
    outward (sourceTrace source event args s)
      = (s.listeners.filter fun l => l.source = source ∧ l.event = event).map
          fun l => (l.handler.outward, (List.range l.handler.arity).map (arg args)) := by
  rw [sourceTrace_eq]
  induction s.listeners.filter (fun l => l.source = source ∧ l.event = event) with
  | nil => rfl
  | cons l ls ih => rw [List.flatMap_cons, outward_append, ih, outward_effects]; rfl

theorem sourceEmit_eq (source : Nat) (event : String) (args : List Val) (s : Bot) :
    sourceEmit source event args s
      = { s with trace := s.trace ++ sourceTrace source event args s } := by
  rw [sourceTrace_eq]
  simp [sourceEmit, foldl_run_eq]

theorem sourceTrace_congr (source : Nat) (event : String) (args : List Val) (s s' : Bot)
    (h : s'.listeners = s.listeners) :
    sourceTrace source event args s' = sourceTrace source event args s := by
  rw [sourceTrace_eq, sourceTrace_eq, h]

theorem sourceEmitAll_eq (events : List (Nat × String × List Val)) :
    ∀ s : Bot, sourceEmitAll events s
      = { s with trace := s.trace ++ events.flatMap fun e => sourceTrace e.1 e.2.1 e.2.2 s } := by
  induction events with
  | nil => intro s; simp [sourceEmitAll]
  | cons e rest ih =>
    intro s
    have h := ih (sourceEmit e.1 e.2.1 e.2.2 s)
    simp only [sourceEmitAll, List.foldl_cons] at h ⊢
    rw [h, sourceEmit_eq]
    have hc : ∀ e' : Nat × String × List Val,
        sourceTrace e'.1 e'.2.1 e'.2.2
          { s with trace := s.trace ++ sourceTrace e.1 e.2.1 e.2.2 s }
        = sourceTrace e'.1 e'.2.1 e'.2.2 s := fun e' => sourceTrace_congr _ _ _ _ _ rfl
    simp only [hc, List.flatMap_cons, List.append_assoc]

/-- C11 (counterexample): after one `loggedInAccount` on a freshly constructed
bot, one `sentOfferChanged` of the trade-offer manager yields two outward
events, and the one named `sentOfferChanged` has lost the second argument; a
`chatLoggedOn` fired with a payload is forwarded without it. -/
theorem bridge_not_one_to_one :
    Bot.new (.str "bot") (.str "secret") .undefined none = .ok sampleBot
      ∧ loggedInAccount 2 (some ["c"]) (some "sid") (.fn 9) sampleBot = .ok sampleLoggedIn
      ∧ sourceTrace 2 "sentOfferChanged" [.obj 1, .obj 2] sampleLoggedIn
          = [.emit "offerChanged" [.obj 1, .obj 2], .emit "sentOfferChanged" [.obj 1]]
      ∧ sourceTrace 0 "chatLoggedOn" [.str "x"] sampleLoggedIn = [.emit "chatLoggedOn" []] :=
  ⟨rfl, by decide, by decide, by decide⟩

/-- C11 (amended): after a single `loggedInAccount` on a freshly constructed bot,
every bridged underlying event other than `sentOfferChanged`, fired with as many
arguments as its listener declares, produces exactly one outward emission of the
same name carrying the same argument list; `sentOfferChanged` fired with
`(offer, oldState)` produces two outward emissions, `offerChanged` with
`(offer, oldState)` and then `sentOfferChanged` carrying the offer; and the
outward emissions of a sequence of underlying emissions are those of each
emission, in the order of the underlying ones. -/
theorem bridge_forwarding (u p : Val) (d : Details) (st : Option (List (String × Val)))
    (s0 : Bot) (cookies : Option Cookies) (sessionID : Option String)
    (callbackErrorOnly : Val) (fuel : Nat) (h0 : Bot.new u p d st = .ok s0)
    (hFuel : 2 ≤ fuel) :
    ∃ s1, (loggedInAccount fuel cookies sessionID callbackErrorOnly s0).bot = some s1
      ∧ (∀ eh ∈ communityBridge, ∀ args : List Val, args.length = eh.2.arity →
          outward (sourceTrace s1.community eh.1 args s1) = [(eh.1, args)])
      ∧ (∀ eh ∈ managerBridge, eh.1 ≠ "sentOfferChanged" →
          ∀ args : List Val, args.length = eh.2.arity →
          outward (sourceTrace s1.TradeOfferManager eh.1 args s1) = [(eh.1, args)])
      ∧ (∀ offer oldState : Val,
          outward (sourceTrace s1.TradeOfferManager "sentOfferChanged" [offer, oldState] s1)
            = [("offerChanged", [offer, oldState]), ("sentOfferChanged", [offer])])
      ∧ (∀ events : List (Nat × String × List Val),
          outward ((sourceEmitAll events s1).trace.drop s1.trace.length)
            = events.flatMap fun e => outward (sourceTrace e.1 e.2.1 e.2.2 s1)) := by
  obtain ⟨-, hd0, hl0, hc0, hm0, -⟩ := new_fields u p d st s0 h0
  obtain ⟨s1, h1, -, -, -, hl1, -, -, -, hco1, -, hm1, -, -⟩ :=
    loggedInAccount_fields [] s0 cookies sessionID callbackErrorOnly fuel
      (by simp [Bot.queue, hd0, getQueue]) (by simp [Bot.queue, hd0, getQueue])
      (by simpa using hFuel)
  have hL : s1.listeners
      = bridgeListeners 0 communityBridge ++ bridgeListeners 2 managerBridge := by
    rw [hl1, hl0, loginBridge, hc0, hm0, List.nil_append]
  rw [hc0] at hco1
  rw [hm0] at hm1
  refine ⟨s1, h1, ?_, ?_, ?_, ?_⟩
  · intro eh heh args hlen
    have hr := range_map_arg args
    rw [hlen] at hr
    rw [outward_sourceTrace, hL, hco1]
    simp only [communityBridge, List.mem_cons, List.mem_singleton, List.mem_nil_iff,
      or_false] at heh
    rcases heh with rfl | rfl | rfl | rfl | rfl <;>
      simpa [bridgeListeners, communityBridge, managerBridge, Handler.outward] using hr
  · intro eh heh hne args hlen
    have hr := range_map_arg args
    rw [hlen] at hr
    rw [outward_sourceTrace, hL, hm1]
    simp only [managerBridge, List.mem_cons, List.mem_singleton, List.mem_nil_iff,
      or_false] at heh
    rcases heh with rfl | rfl | rfl | rfl | rfl | rfl | rfl | rfl <;>
      first
      | exact absurd rfl hne
      | simpa [bridgeListeners, communityBridge, managerBridge, Handler.outward] using hr
  · intro offer oldState
    rw [outward_sourceTrace, hL, hm1]
    simp [bridgeListeners, communityBridge, managerBridge, Handler.outward, Handler.arity,
      List.range, List.range.loop, arg]
  · intro events
    rw [sourceEmitAll_eq]
    simp only [List.drop_left]
    induction events with
    | nil => rfl
    | cons e rest ih => rw [List.flatMap_cons, outward_append, ih, List.flatMap_cons]

/-- Witness of C11 (amended): the bot built with the default settings. -/
theorem bridge_forwarding_witness :
    ∃ s1, (loggedInAccount 2 (some ["c"]) (some "sid") (.fn 9) sampleBot).bot = some s1
      ∧ (∀ eh ∈ communityBridge, ∀ args : List Val, args.length = eh.2.arity →
          outward (sourceTrace s1.community eh.1 args s1) = [(eh.1, args)])
      ∧ (∀ eh ∈ managerBridge, eh.1 ≠ "sentOfferChanged" →
          ∀ args : List Val, args.length = eh.2.arity →
          outward (sourceTrace s1.TradeOfferManager eh.1 args s1) = [(eh.1, args)])
      ∧ (∀ offer oldState : Val,
          outward (sourceTrace s1.TradeOfferManager "sentOfferChanged" [offer, oldState] s1)
            = [("offerChanged", [offer, oldState]), ("sentOfferChanged", [offer])])
      ∧ (∀ events : List (Nat × String × List Val),
          outward ((sourceEmitAll events s1).trace.drop s1.trace.length)
            = events.flatMap fun e => outward (sourceTrace e.1 e.2.1 e.2.2 s1)) :=
  bridge_forwarding (.str "bot") (.str "secret") .undefined none sampleBot (some ["c"])
    (some "sid") (.fn 9) 2 rfl (by decide)

/-! ## Profile edits of deferred name changes -/

theorem profileEdits_append (t u : List Effect) :
    profileEdits (t ++ u) = profileEdits t ++ profileEdits u := by
  induction t with
  | nil => rfl
  | cons e t ih => cases e <;> simp [profileEdits, ih]

theorem profileEdits_bridgeTrace (source : Nat) (table : List (String × Handler)) :
    profileEdits (bridgeTrace source table) = [] := by
  induction table with
  | nil => rfl
  | cons eh rest ih => simpa [bridgeTrace, profileEdits] using ih

theorem profileEdits_callTrace (f : Val) : profileEdits (callTrace f) = [] := by
  cases f <;> rfl

theorem profileEdits_loginPrelude (s : Bot) (cookies : Option Cookies) :
    profileEdits (loginPrelude s cookies) = [] := by
  cases cookies <;> rfl

theorem profileEdits_changes (community manager : Nat) (changes : List NameChange) :
    profileEdits ((changes.map NameChange.call).flatMap (GatedCall.replay community manager))
      = changes.map fun c => Val.str c.expected := by
  induction changes with
  | nil => rfl
  | cons c rest ih =>
    rw [List.map_cons, List.flatMap_cons, profileEdits_append, ih]
    obtain ⟨n, p, cb⟩ := c
    cases p <;>
      simp [GatedCall.replay, GatedCall.clientCall, NameChange.call, NameChange.expected,
        profileEdits, isNullish, jsAdd, unevaluated, stringLike, toStr]

/-- C12 (counterexample): on the unauthenticated bot that
`addToQueue("hasOwnProperty", ...)` leaves, `changeName("Alice", "", cb1)` throws
a `TypeError` and is not deferred, and the following `loggedInAccount` throws as
well: no profile edit is attempted. -/
theorem name_changes_lost_when_shadowed :
    addToQueue "hasOwnProperty" .changeName [.str "Alice", .str "", .fn 1] sampleBot
        = .ok sampleShadowed
      ∧ sampleShadowed.loggedIn = false
      ∧ runCalls
          ([{ newName := "Alice", namePrefix := some "", callbackErrorOnly := .fn 1 },
            { newName := "Bob", namePrefix := some "[TAG]", callbackErrorOnly := .fn 2 }].map
              NameChange.call) sampleShadowed
        = .threw shadowedError sampleShadowed
      ∧ (loggedInAccount 4 (some ["c"]) (some "sid") (.fn 9) sampleShadowed).bot.map
          (fun s => profileEdits s.trace) = some [] := by
  decide

/-- C12 (amended): on a bot on which no queue named `hasOwnProperty` has been
created, name changes `changeName(newName_i, namePrefix_i, cb_i)` (the names
being strings, the prefixes strings or undefined) made while unauthenticated,
the `login` queue holding deferred gated calls, are all deferred, and the
following `loggedInAccount` (given enough evaluation budget) attempts, after
the edits of the calls deferred earlier, one profile edit per name change, in
call order, with the name `namePrefix_i` concatenated before `newName_i`, an
undefined prefix counting as the empty string. -/
theorem deferred_name_changes (changes : List NameChange) (earlier : List GatedCall)
    (s : Bot) (cookies : Option Cookies) (sessionID : Option String)
    (callbackErrorOnly : Val) (fuel : Nat) (hns : s.queue "hasOwnProperty" = none)
    (hOut : s.loggedIn = false)
    (hq : (s.queue "login").getD [] = earlier.map GatedCall.entry)
    (hFuel : earlier.length + changes.length + 2 ≤ fuel) :
    ∃ s1 s2, runCalls (changes.map NameChange.call) s = .ok s1
      ∧ (loggedInAccount fuel cookies sessionID callbackErrorOnly s1).bot = some s2
      ∧ profileEdits (s2.trace.drop s.trace.length)
          = profileEdits (earlier.flatMap (GatedCall.replay s.community s.TradeOfferManager))
            ++ changes.map fun c => Val.str c.expected := by
  obtain ⟨s1, hrun, hq1, hs1, hns1⟩ :=
    runCalls_unauthenticated (changes.map NameChange.call) s hOut hns
  rw [hq, ← List.map_append] at hq1
  obtain ⟨s2, h2, -, -, -, -, ht2, -⟩ :=
    loggedInAccount_fields (earlier ++ changes.map NameChange.call) s1 cookies sessionID
      callbackErrorOnly fuel hns1 hq1 (by simpa [Nat.add_assoc] using hFuel)
  have hc : s1.community = s.community := by rw [hs1]
  have hm : s1.TradeOfferManager = s.TradeOfferManager := by rw [hs1]
  have ht : s1.trace = s.trace := by rw [hs1]
  refine ⟨s1, s2, hrun, h2, ?_⟩
  rw [ht2, ht, List.drop_left]
  simp only [loginTrace, hc, hm, List.flatMap_append, profileEdits_append,
    profileEdits_bridgeTrace, profileEdits_callTrace, profileEdits_loginPrelude,
    profileEdits_changes, List.nil_append, List.append_nil]

/-- Witness of C12 (amended): `changeName("Alice", "", cb1)` then `changeName("Bob", "[TAG]", cb2)`
on a freshly constructed bot gives the edits `Alice` then `[TAG]Bob`. -/
theorem deferred_name_changes_witness :
    ∃ s1 s2, runCalls
        ([{ newName := "Alice", namePrefix := some "", callbackErrorOnly := .fn 1 },
          { newName := "Bob", namePrefix := some "[TAG]", callbackErrorOnly := .fn 2 }].map
            NameChange.call) sampleBot = .ok s1
      ∧ (loggedInAccount 4 (some ["c"]) (some "sid") (.fn 9) s1).bot = some s2
      ∧ profileEdits (s2.trace.drop sampleBot.trace.length)
          = profileEdits (([] : List GatedCall).flatMap
              (GatedCall.replay sampleBot.community sampleBot.TradeOfferManager))
            ++ [.str "Alice", .str "[TAG]Bob"] :=
  deferred_name_changes
    [{ newName := "Alice", namePrefix := some "", callbackErrorOnly := .fn 1 },
     { newName := "Bob", namePrefix := some "[TAG]", callbackErrorOnly := .fn 2 }]
    [] sampleBot (some ["c"]) (some "sid") (.fn 9) 4 rfl rfl rfl (by decide)

/-! ## Replies of the profile edit and of the API-capability probe -/

/-- What the reply closure of `changeName` does: on a falsy `err` it stores
`newName`, emits `updatedAccountDetails` once and calls the callback with
`undefined`; on a truthy `err` it only calls the callback, with `err.Error`. -/
theorem editProfileCallback_cases (newName err : Val) (id : Nat) (s : Bot) :
    (truthy err = false →
      editProfileCallback newName (.fn id) err s
        = .ok { s with
            displayName := newName,
            trace := s.trace ++ [.emit "updatedAccountDetails" [], .call id [.undefined]] })
    ∧ (truthy err = true →
      editProfileCallback newName (.fn id) err s
        = .ok { s with trace := s.trace ++ [.call id [getError err]] }) := by
  constructor <;> intro h <;> simp [editProfileCallback, h, callVal, Bot.record]

/-- C13 (evaluation at the failing input): on an authenticated bot
`changeName("Alice", "", cb1)` hands the edit to the community client; when the
client replies with `new Error("Rate limited")`, the callback `cb1` is called
once with `undefined`, the value of `err.Error`, and not with the error. -/
theorem changeName_failure_reports_undefined :
    changeName (.str "Alice") (.str "") (.fn 1) sampleLoggedIn = .ok sampleEditing
      ∧ editProfileCallback (.str "Alice") (.fn 1) (.error "Rate limited") sampleEditing
          = .ok { sampleEditing with trace := sampleEditing.trace ++ [.call 1 [.undefined]] }
      ∧ editProfileCallback (.str "Alice") (.fn 1) .undefined sampleEditing
          = .ok { sampleEditing with
              displayName := .str "Alice",
              trace := sampleEditing.trace
                ++ [.emit "updatedAccountDetails" [], .call 1 [.undefined]] } := by
  decide

/-- C14 (counterexample): after a successful probe has set `api_access = true`, a
probe that fails with an error whose `Error` property is `"Timeout"` leaves
`api_access = true` and calls `Trade.setAPIAccess(true)`. -/
theorem probe_failure_keeps_flag :
    setCookiesCallback .undefined sampleLoggedIn = sampleProbed
      ∧ setCookiesCallback (.failure (.str "Timeout")) sampleProbed
          = { sampleProbed with
              trace := sampleProbed.trace
                ++ [probeLog sampleProbed (.failure (.str "Timeout")),
                    .setAPIAccess (.bool true)] } := by
  decide

/-- C14 (amended): for every bot state, when the probe succeeds `api_access` is
true and `Trade.setAPIAccess` is called with true; when it fails with an error
whose `Error` property is `"Access Denied"`, `api_access` is false and
`Trade.setAPIAccess` is called with false; when it fails with an error whose
`Error` property is anything else, `api_access` keeps the value it had and
`Trade.setAPIAccess` is called with that value; in every case only `api_access`
and the trace change, so `loggedIn` is as before. -/
theorem probe_reply (s : Bot) (err e : Val) :
    (truthy err = false →
      setCookiesCallback err s
        = { s with
            api_access := .bool true,
            trace := s.trace ++ [.setAPIAccess (.bool true)] })
    ∧ setCookiesCallback (.failure (.str "Access Denied")) s
        = { s with
            api_access := .bool false,
            trace := s.trace ++ [probeLog s (.failure (.str "Access Denied")),
              .setAPIAccess (.bool false)] }
    ∧ (e ≠ .str "Access Denied" →
      setCookiesCallback (.failure e) s
        = { s with
            trace := s.trace ++ [probeLog s (.failure e), .setAPIAccess s.api_access] })
    ∧ (setCookiesCallback err s).loggedIn = s.loggedIn := by
  refine ⟨?_, ?_, ?_, ?_⟩
  · intro h
    simp [setCookiesCallback, h, Bot.record]
  · simp [setCookiesCallback, truthy, getError, isAccessDenied, Bot.record, probeLog]
  · intro h
    have hd : isAccessDenied e = false := by
      cases e <;> simp_all [isAccessDenied]
    simp [setCookiesCallback, truthy, getError, hd, Bot.record, probeLog]
  · unfold setCookiesCallback
    simp only [Bot.record]
    split
    · split <;> rfl
    · rfl

/-- Witness of C14 (amended): an authenticated bot, a successful reply and the
error property `"Timeout"`. -/
theorem probe_reply_witness :
    (truthy .undefined = false →
      setCookiesCallback .undefined sampleLoggedIn
        = { sampleLoggedIn with
            api_access := .bool true,
            trace := sampleLoggedIn.trace ++ [.setAPIAccess (.bool true)] })
    ∧ setCookiesCallback (.failure (.str "Access Denied")) sampleLoggedIn
        = { sampleLoggedIn with
            api_access := .bool false,
            trace := sampleLoggedIn.trace
              ++ [probeLog sampleLoggedIn (.failure (.str "Access Denied")),
                .setAPIAccess (.bool false)] }
    ∧ (Val.str "Timeout" ≠ .str "Access Denied" →
      setCookiesCallback (.failure (.str "Timeout")) sampleLoggedIn
        = { sampleLoggedIn with
            trace := sampleLoggedIn.trace ++ [probeLog sampleLoggedIn (.failure (.str "Timeout")),
              .setAPIAccess sampleLoggedIn.api_access] })
    ∧ (setCookiesCallback .undefined sampleLoggedIn).loggedIn = sampleLoggedIn.loggedIn :=
  probe_reply sampleLoggedIn .undefined (.str "Timeout")

/-! ## Settings -/

theorem getProp_filter_ne (settings : List (String × Val)) (name : String) :
    getProp (settings.filter fun kv => kv.1 ≠ name) name = none := by
  induction settings with
  | nil => rfl
  | cons kv rest ih =>
    obtain ⟨k, v⟩ := kv
    by_cases h : k = name
    · simpa [List.filter_cons, h] using ih
    · simpa [List.filter_cons, h, getProp] using ih

/-- After `deleteSetting(name)`, `getSetting(name)` gives `undefined` (on a
`settings` object on which the own-property test can be made). -/
theorem getSetting_deleteSetting (name : String) (s : Bot) :
    getSetting name (deleteSetting name s) = .undefined := by
  unfold deleteSetting
  split
  · have h := getProp_filter_ne s.settings name
    simp only [getSetting, h]
  · rename_i h
    cases hg : getProp s.settings name with
    | none => simp [getSetting, hg]
    | some v => simp [hg] at h

/-- C17 (evaluation at the failing input): on a bot built with the default
settings `setSetting("language", "fr")` throws a `ReferenceError` and changes
nothing, so `getSetting("language")` still gives `"en"`. -/
theorem setSetting_throws :
    setSetting (.str "language") (.str "fr") sampleBot
        = .threw (.referenceError "tempSetting is not defined") sampleBot
      ∧ getSetting "language" sampleBot = .str "en"
      ∧ getSetting "language" (deleteSetting "language" sampleBot) = .undefined := by
  decide

/-! ## Termination of the drain -/

theorem invoke_gated_unauthenticated (fuel : Nat) (c : GatedCall) (s : Bot)
    (h : s.loggedIn = false) (hns : s.queue "hasOwnProperty" = none) :
    invoke (fuel + 1) c.entry s
      = .ok { s with
          delayedTasks := setQueue s.delayedTasks "login" ((s.queue "login").getD [] ++ [c.entry]),
          trace := s.trace ++ [.apply c.fn c.params] } := by
  have hns' : getQueue s.delayedTasks "hasOwnProperty" = none := by
    simpa [Bot.queue] using hns
  cases c <;>
    simp [invoke, GatedCall.entry, GatedCall.fn, GatedCall.params, arg, changeName,
      getInventory, getUserInventory, addToQueue, Bot.hasQueue, Bot.record, Bot.queue, h, hns']

theorem drainLoop_login_unauthenticated (fuel : Nat) :
    ∀ (s : Bot) (c : GatedCall) (cs : List GatedCall), s.loggedIn = false →
      s.queue "hasOwnProperty" = none →
      s.queue "login" = some ((c :: cs).map GatedCall.entry) →
      drainLoop fuel "login" s = .outOfFuel := by
  induction fuel with
  | zero => intro s c cs _ _ _; rfl
  | succ f ih =>
    intro s c cs hOut hns hq
    rw [drainLoop]
    simp only [hq, List.map_cons]
    cases f with
    | zero => rfl
    | succ g =>
      have hns1 : ∀ (v w : List Entry) (t : List Effect),
          Bot.queue { s with
            delayedTasks := setQueue (setQueue s.delayedTasks "login" v) "login" w,
            trace := t } "hasOwnProperty" = none := by
        intro v w t
        have h1 := queue_setQueue_ne s "login" "hasOwnProperty" w (by decide)
        rw [hns] at h1
        rw [setQueue_setQueue]
        exact h1
      rw [invoke_gated_unauthenticated g c _ (by simpa using hOut)
        (by rw [queue_setQueue_ne s "login" "hasOwnProperty" _ (by decide)]; exact hns)]
      simp only
      have hq' : ∀ t : List Effect,
          Bot.queue { s with
            delayedTasks := setQueue (setQueue s.delayedTasks "login" (cs.map GatedCall.entry))
              "login" (cs.map GatedCall.entry ++ [c.entry]),
            trace := t } "login"
          = some ((cs ++ [c]).map GatedCall.entry) := by
        intro t
        simp [Bot.queue, getQueue_setQueue]
      have hmid : (Bot.queue { s with
          delayedTasks := setQueue s.delayedTasks "login" (cs.map GatedCall.entry) } "login").getD []
          = cs.map GatedCall.entry := by
        simp [Bot.queue, getQueue_setQueue]
      rw [hmid]
      cases cs with
      | nil => exact ih _ c [] (by simpa using hOut) (hns1 _ _ _) (by simpa using hq' _)
      | cons d ds =>
        exact ih _ d (ds ++ [c]) (by simpa using hOut) (hns1 _ _ _) (by simpa using hq' _)

/-- C16 (counterexample): on an authenticated bot `addToQueue("hasOwnProperty",
self.changeName, ...)` returns normally and leaves a queue named
`hasOwnProperty` that holds one deferred gated call; `processQueue` of that
queue throws a `TypeError` at its own-property test: it applies no entry, where
the claim has one, and the queue still holds its entry. -/
theorem drain_dispatches_nothing_when_shadowed :
    addToQueue "hasOwnProperty" .changeName [.str "Alice", .str "", .fn 1] sampleLoggedIn
        = .ok sampleShadowedIn
      ∧ sampleShadowedIn.loggedIn = true
      ∧ sampleShadowedIn.queue "hasOwnProperty"
        = some ([GatedCall.changeName (.str "Alice") (.str "") (.fn 1)].map GatedCall.entry)
      ∧ processQueue 3 "hasOwnProperty" (.user (.fn 9)) sampleShadowedIn
        = .threw shadowedError sampleShadowedIn
      ∧ dispatched (sampleShadowedIn.trace.drop sampleLoggedIn.trace.length) = [] := by
  decide

/-- C16 (amended): on an authenticated bot on which no queue named
`hasOwnProperty` has been created and whose queue `q` holds n deferred gated
calls, `processQueue(q)` with an evaluation budget of at least n + 2 reaches
its completion callback after applying exactly these n entries, and `q` is then
empty.  On an unauthenticated bot without a queue named `hasOwnProperty` a
gated call that is applied appends itself to the `login` queue, so that the
drain of a non-empty `login` queue of gated calls uses up every evaluation
budget. -/
theorem drain_terminates_when_authenticated (q : String) (cs : List GatedCall) (k : Callback)
    (fuel : Nat) (s : Bot) (hns : s.queue "hasOwnProperty" = none) (hIn : s.loggedIn = true)
    (hq : (s.queue q).getD [] = cs.map GatedCall.entry) (hFuel : cs.length + 2 ≤ fuel) :
    (∃ s', processQueue fuel q k s = runCallback k s'
      ∧ dispatched (s'.trace.drop s.trace.length) = cs.map GatedCall.entry
      ∧ (dispatched (s'.trace.drop s.trace.length)).length = cs.length
      ∧ (s'.queue q).getD [] = [])
    ∧ (∀ (c : GatedCall) (t : Bot) (f : Nat), t.loggedIn = false →
        t.queue "hasOwnProperty" = none →
        ∃ t', invoke (f + 1) c.entry t = .ok t'
          ∧ t'.queue "login" = some ((t.queue "login").getD [] ++ [c.entry]))
    ∧ (∀ (c : GatedCall) (rest : List GatedCall) (t : Bot) (f : Nat), t.loggedIn = false →
        t.queue "hasOwnProperty" = none →
        t.queue "login" = some ((c :: rest).map GatedCall.entry) →
        processQueue f "login" k t = .outOfFuel) := by
  refine ⟨⟨_, processQueue_gated q cs k fuel s hns hIn hq hFuel, ?_, ?_, ?_⟩, ?_, ?_⟩
  · simp only [List.drop_left, dispatched_replay]
  · simp only [List.drop_left, dispatched_replay, List.length_map]
  · have := queue_emptied s q
    simpa [Bot.queue] using this
  · intro c t f ht htn
    refine ⟨_, invoke_gated_unauthenticated f c t ht htn, ?_⟩
    simp [Bot.queue, getQueue_setQueue]
  · intro c rest t f ht htn htq
    cases f with
    | zero => rfl
    | succ g =>
      have hh : t.owns "login" = true := by simp [Bot.owns, htq]
      rw [processQueue, hasQueue_ok t "login" htn]
      dsimp only
      rw [if_pos hh, drainLoop_login_unauthenticated g t c rest ht htn htq]

/-- Witness of C16 (amended): an authenticated bot with one deferred call in
queue `jobs`. -/
theorem drain_terminates_when_authenticated_witness :
    (∃ s', processQueue 3 "jobs" (.user (.fn 9))
        { sampleLoggedIn with delayedTasks := [("jobs", [sampleEntry])] } = runCallback (.user (.fn 9)) s'
      ∧ dispatched (s'.trace.drop
          ({ sampleLoggedIn with delayedTasks := [("jobs", [sampleEntry])] } : Bot).trace.length)
          = [GatedCall.changeName (.str "Alice") (.str "") (.fn 1)].map GatedCall.entry
      ∧ (dispatched (s'.trace.drop
          ({ sampleLoggedIn with delayedTasks := [("jobs", [sampleEntry])] } : Bot).trace.length)).length
          = [GatedCall.changeName (.str "Alice") (.str "") (.fn 1)].length
      ∧ (s'.queue "jobs").getD [] = [])
    ∧ (∀ (c : GatedCall) (t : Bot) (f : Nat), t.loggedIn = false →
        t.queue "hasOwnProperty" = none →
        ∃ t', invoke (f + 1) c.entry t = .ok t'
          ∧ t'.queue "login" = some ((t.queue "login").getD [] ++ [c.entry]))
    ∧ (∀ (c : GatedCall) (rest : List GatedCall) (t : Bot) (f : Nat), t.loggedIn = false →
        t.queue "hasOwnProperty" = none →
        t.queue "login" = some ((c :: rest).map GatedCall.entry) →
        processQueue f "login" (.user (.fn 9)) t = .outOfFuel) :=
  drain_terminates_when_authenticated "jobs" [.changeName (.str "Alice") (.str "") (.fn 1)]
    (.user (.fn 9)) 3 { sampleLoggedIn with delayedTasks := [("jobs", [sampleEntry])] }
    rfl rfl rfl (by decide)

/-! ## Constructor validation -/

theorem callHasOwn_builtin (own inherited : List (String × Val)) (name : String)
    (ho : getProp own "hasOwnProperty" = none)
    (hi : getProp inherited "hasOwnProperty" = none) :
    callHasOwn own inherited .builtin name = .ok (getProp own name).isSome := by
  simp [callHasOwn, ho, hi]

/-- C15 (counterexample): the constructor throws nothing for a username that is
not a string when `details` carries `steamguard` and `oAuthToken`, and nothing
for string credentials when `details` carries neither; and for a username that
is not a string and a `details` object that carries both but also has an own
property `hasOwnProperty: true`, it throws a `TypeError`, not the credentials
error. -/
theorem constructor_accepts :
    (Bot.new (.num 5) (.str "secret")
        (.obj [("steamguard", .str "g"), ("oAuthToken", .str "t")] .builtin) none).toOption.map
          (fun s => (s.loggedIn, s.delayedTasks)) = some (false, [])
      ∧ (Bot.new (.str "bot") (.str "secret") (.obj [] .builtin) none).toOption.map
          (fun s => (s.loggedIn, s.delayedTasks)) = some (false, [])
      ∧ Bot.new (.num 5) (.str "secret")
          (.obj [("steamguard", .str "g"), ("oAuthToken", .str "t"),
                 ("hasOwnProperty", .bool true)] .builtin) none
        = .error (.typeError "hasOwnProperty is not a function") :=
  ⟨by decide, by decide, rfl⟩

/-- C15 (amended): with `details` an ordinary object that has no own property
named `hasOwnProperty`, the constructor throws the error
`Invalid username/password or missing oAuthToken/Steamguard code` exactly when
the username or the password is not a string and, in addition, `details` lacks
`steamguard` or lacks `oAuthToken`; for every other input with such a `details`
object, and for a string username and password with `details` undefined, it
throws nothing and yields a bot with `loggedIn = false` and no queued tasks. -/
theorem constructor_validation (u p : Val) (props : List (String × Val))
    (st : Option (List (String × Val))) (hown : getProp props "hasOwnProperty" = none) :
    (Bot.new u p (.obj props .builtin) st = .error invalidCredentials ↔ rejects u p props)
    ∧ (¬ rejects u p props →
        ∃ s, Bot.new u p (.obj props .builtin) st = .ok s
          ∧ s.loggedIn = false ∧ s.delayedTasks = [])
    ∧ (notString u = false → notString p = false →
        ∃ s, Bot.new u p .undefined st = .ok s ∧ s.loggedIn = false ∧ s.delayedTasks = []) := by
  have hc : ∀ name, callHasOwn props [] .builtin name = .ok (getProp props name).isSome :=
    fun name => callHasOwn_builtin props [] name hown rfl
  cases hs : getProp props "steamguard" <;> cases ho : getProp props "oAuthToken" <;>
    cases hd : getProp props "displayName" <;> cases hu : notString u <;>
    cases hp : notString p <;>
    simp [Bot.new, Bot.validate, Bot.named, hc, hs, ho, hd, hu, hp, rejects, invalidCredentials]

/-- Witness of C15 (amended): string credentials and empty details. -/
theorem constructor_validation_witness :
    (Bot.new (.str "bot") (.str "secret") (.obj [] .builtin) none = .error invalidCredentials
        ↔ rejects (.str "bot") (.str "secret") [])
    ∧ (¬ rejects (.str "bot") (.str "secret") [] →
        ∃ s, Bot.new (.str "bot") (.str "secret") (.obj [] .builtin) none = .ok s
          ∧ s.loggedIn = false ∧ s.delayedTasks = [])
    ∧ (notString (.str "bot") = false → notString (.str "secret") = false →
        ∃ s, Bot.new (.str "bot") (.str "secret") .undefined none = .ok s
          ∧ s.loggedIn = false ∧ s.delayedTasks = []) :=
  constructor_validation (.str "bot") (.str "secret") [] none rfl

/-! ## The URL of an API request -/

theorem toString_int (n : Int) :
    toString n = if n < 0 then "-" ++ Nat.repr n.natAbs else Nat.repr n.natAbs := by
  cases n with
  | ofNat m =>
    have h : ¬ (Int.ofNat m < 0) := by simp
    rw [if_neg h]
    rfl
  | negSucc m =>
    have h : Int.negSucc m < 0 := Int.negSucc_lt_zero m
    rw [if_pos h]
    rfl

theorem toStr_scalar (v : Scalar) (h : v.exact = true) : toStr v.val = some v.written := by
  cases v with
  | text s => rfl
  | whole n =>
    have hs : safe n = true := h
    simp [Scalar.val, toStr, hs, Scalar.written, toString_int]
  | flag b => cases b <;> rfl

theorem jsAdd_str (x y : String) : jsAdd (.str x) (.str y) = .str (x ++ y) := by
  simp [jsAdd, unevaluated, stringLike, toStr]

theorem jsAdd_str_scalar (x : String) (v : Scalar) (h : v.exact = true) :
    jsAdd (.str x) v.val = .str (x ++ v.written) := by
  have hu : unevaluated v.val = false := by cases v <;> rfl
  have hu' : unevaluated (.str x) = false := rfl
  have hs : stringLike (.str x) = true := rfl
  have ht : toStr (.str x) = some x := rfl
  simp only [jsAdd, hu, hu', hs, ht, toStr_scalar v h, Bool.or_self, Bool.true_or, if_true,
    Bool.false_eq_true, if_false]

theorem getProp_append (l1 l2 : List (String × Val)) (k : String)
    (h : getProp l1 k = none) : getProp (l1 ++ l2) k = getProp l2 k := by
  induction l1 with
  | nil => rfl
  | cons kv rest ih =>
    obtain ⟨a, b⟩ := kv
    by_cases hk : a = k
    · simp [getProp, hk] at h
    · simp only [getProp, hk, if_false] at h
      simp [getProp, hk, ih h]

theorem getProp_none_of_not_mem (l : List (String × Val)) (k : String)
    (h : k ∉ l.map Prod.fst) : getProp l k = none := by
  induction l with
  | nil => rfl
  | cons kv rest ih =>
    obtain ⟨a, b⟩ := kv
    simp only [List.map_cons, List.mem_cons, not_or] at h
    simp [getProp, Ne.symm h.1, ih h.2]

theorem queryLoop_skipped (o : Options)
    (hb : ∀ name, callHasOwn o.own o.inherited o.proto name = .ok (getProp o.own name).isSome)
    (acc : Val × Nat) :
    ∀ keys : List String, (∀ k ∈ keys, getProp o.own k = none) →
      queryLoop o keys acc = .ok acc := by
  intro keys
  induction keys with
  | nil => intro _; rfl
  | cons k rest ih =>
    intro h
    obtain ⟨string, x⟩ := acc
    rw [queryLoop, hb k, h k (by simp)]
    exact ih fun k' hk' => h k' (by simp [hk'])

theorem queryLoop_own (o : Options) (tail : List String)
    (hb : ∀ name, callHasOwn o.own o.inherited o.proto name = .ok (getProp o.own name).isSome) :
    ∀ (rest done : List (String × Scalar)) (string : String),
      o.own = (done ++ rest).map (fun kv => (kv.1, kv.2.val)) →
      ((done ++ rest).map Prod.fst).Nodup → (∀ kv ∈ rest, kv.2.exact = true) →
      queryLoop o (rest.map Prod.fst ++ tail) (.str string, done.length)
        = queryLoop o tail (.str (string ++ queryPairs rest), o.own.length) := by
  intro rest
  induction rest with
  | nil =>
    intro done string ho _ _
    simp [queryPairs, ho]
  | cons kv rest ih =>
    intro done string ho hnd hex
    have hlen : o.own.length = done.length + (rest.length + 1) := by simp [ho]
    have hget : getProp o.own kv.1 = some kv.2.val := by
      rw [ho, List.map_append]
      rw [getProp_append _ _ _ (getProp_none_of_not_mem _ _ (by
        rw [List.map_append, List.nodup_append] at hnd
        intro hmem
        simp only [List.map_map] at hmem
        exact hnd.2.2 (by simpa [Function.comp] using hmem) (by simp)))]
      simp [getProp]
    have hkv : kv.2.exact = true := hex kv (by simp)
    simp only [List.map_cons, List.cons_append]
    rw [queryLoop, hb kv.1, hget]
    simp only [Option.isSome_some, Option.getD_some]
    have hstep := ih (done ++ [kv]) (string ++ (kv.1 ++ "=" ++ kv.2.written
        ++ (if rest = [] then "" else "&")))
      (by simpa using ho) (by simpa using hnd) (fun kv' h' => hex kv' (by simp [h']))
    rw [List.length_append, List.length_singleton] at hstep
    cases rest with
    | nil =>
      have hc : ¬ ((done.length : Int) < (o.own.length : Int) - 1) := by
        rw [hlen]; simp
      simp only [hc, if_false, jsAdd_str, jsAdd_str_scalar _ _ hkv]
      simpa [queryPairs, String.append_assoc] using hstep
    | cons b r =>
      have hc : (done.length : Int) < (o.own.length : Int) - 1 := by
        rw [hlen]; simp; omega
      simp only [hc, if_true, jsAdd_str, jsAdd_str_scalar _ _ hkv]
      simpa [queryPairs, String.append_assoc] using hstep

theorem queryPairs_eq_intercalate (pairs : List (String × Scalar)) :
    queryPairs pairs = "&".intercalate (pairs.map fun kv => kv.1 ++ "=" ++ kv.2.written) := by
  have hgo : ∀ (l : List String) (acc : String),
      String.intercalate.go acc "&" l = acc ++ (l.map fun a => "&" ++ a).foldr (· ++ ·) "" := by
    intro l
    induction l with
    | nil => intro acc; simp [String.intercalate.go]
    | cons a rest ih => intro acc; simp [String.intercalate.go, ih, String.append_assoc]
  have hq : ∀ (kv : String × Scalar) (rest : List (String × Scalar)),
      queryPairs (kv :: rest) = kv.1 ++ "=" ++ kv.2.written
        ++ ((rest.map fun kv => kv.1 ++ "=" ++ kv.2.written).map fun a => "&" ++ a).foldr
          (· ++ ·) "" := by
    intro kv rest
    induction rest generalizing kv with
    | nil => simp [queryPairs]
    | cons b r ih => simp [queryPairs, ih b, String.append_assoc]
  cases pairs with
  | nil => rfl
  | cons kv rest => rw [hq, List.map_cons, String.intercalate, hgo]

theorem queryString_ordinary (pairs : List (String × Scalar)) (inherited : List (String × Val))
    (hkeys : (pairs.map Prod.fst).Nodup) (hexact : ∀ kv ∈ pairs, kv.2.exact = true)
    (hown : ∀ kv ∈ pairs, kv.1 ≠ "hasOwnProperty")
    (hinh : getProp inherited "hasOwnProperty" = none) :
    queryString (some (ordinaryOptions pairs inherited))
      = .ok (.str ("?" ++ queryPairs pairs)) := by
  have ho : getProp (ordinaryOptions pairs inherited).own "hasOwnProperty" = none := by
    apply getProp_none_of_not_mem
    simp only [ordinaryOptions, List.map_map]
    intro hmem
    obtain ⟨kv, hkv, hk⟩ := List.mem_map.1 hmem
    exact hown kv hkv hk
  have hb : ∀ name, callHasOwn (ordinaryOptions pairs inherited).own
      (ordinaryOptions pairs inherited).inherited (ordinaryOptions pairs inherited).proto name
        = .ok (getProp (ordinaryOptions pairs inherited).own name).isSome :=
    fun name => callHasOwn_builtin _ _ name ho hinh
  have hloop := queryLoop_own (ordinaryOptions pairs inherited)
    (((ordinaryOptions pairs inherited).inherited.map Prod.fst).filter
      fun k => (getProp (ordinaryOptions pairs inherited).own k).isNone) hb pairs [] "?"
    (by simp [ordinaryOptions]) (by simpa using hkeys) hexact
  have hkeys' : (ordinaryOptions pairs inherited).own.map Prod.fst = pairs.map Prod.fst := by
    simp [ordinaryOptions, Function.comp]
  simp only [queryString, Options.enumerated, hkeys']
  rw [List.length_nil] at hloop
  rw [hloop, queryLoop_skipped _ hb _ _ (by
    intro k hk
    have := (List.mem_filter.1 hk).2
    simpa using this)]

/-- C18 (counterexample): for the options `{key: "abc", hasOwnProperty: true}`, and
for the options `{key: "abc"}` on an object without prototype,
`options.hasOwnProperty(option)` is not a function call that can be made:
`getRequestAPI` throws a `TypeError` and requests no URL. -/
theorem request_throws_when_shadowed :
    getRequestAPI (.str "ISteamUser") (.str "v2") (.str "GetPlayerSummaries")
        (some { own := [("key", .str "abc"), ("hasOwnProperty", .bool true)],
                inherited := [], proto := .builtin })
      = .error (.typeError "hasOwnProperty is not a function")
    ∧ getRequestAPI (.str "ISteamUser") (.str "v2") (.str "GetPlayerSummaries")
        (some { own := [("key", .str "abc")], inherited := [], proto := .other .undefined })
      = .error (.typeError "hasOwnProperty is not a function") :=
  ⟨rfl, rfl⟩

/-- C18 (amended): for an ordinary options object (one that inherits the built-in
`hasOwnProperty` and has no own or inherited enumerable property of that name)
with own enumerable properties `k1..kn` in enumeration order whose values
`v1..vn` are strings, booleans or whole numbers of magnitude at most 2^53,
whatever else it inherits, and for strings `apiInterface`, `version` and
`method`, `getRequestAPI` requests
`http://api.steampowered.com/<apiInterface>/<method>/<version>/?` followed by
`k1=v1&...&kn=vn`, that is the pairs joined by `&`: each pair once, in order, a
separator between consecutive pairs only; with no own property, or with
`options` undefined, the query is just `?`. -/
theorem request_url (apiInterface version method : String) (pairs : List (String × Scalar))
    (inherited : List (String × Val)) (hkeys : (pairs.map Prod.fst).Nodup)
    (hexact : ∀ kv ∈ pairs, kv.2.exact = true)
    (hown : ∀ kv ∈ pairs, kv.1 ≠ "hasOwnProperty")
    (hinh : getProp inherited "hasOwnProperty" = none) :
    getRequestAPI (.str apiInterface) (.str version) (.str method)
        (some (ordinaryOptions pairs inherited))
      = .ok (.str ("http://api.steampowered.com/" ++ apiInterface ++ "/" ++ method ++ "/"
          ++ version ++ "/?"
          ++ "&".intercalate (pairs.map fun kv => kv.1 ++ "=" ++ kv.2.written)))
    ∧ getRequestAPI (.str apiInterface) (.str version) (.str method)
        (some (ordinaryOptions [] inherited))
      = .ok (.str ("http://api.steampowered.com/" ++ apiInterface ++ "/" ++ method ++ "/"
          ++ version ++ "/?"))
    ∧ getRequestAPI (.str apiInterface) (.str version) (.str method) none
      = .ok (.str ("http://api.steampowered.com/" ++ apiInterface ++ "/" ++ method ++ "/"
          ++ version ++ "/?")) := by
  have hsl : ∀ t : String, "/" ++ ("?" ++ t) = "/?" ++ t := by
    intro t
    rw [← String.append_assoc]
    rfl
  have hs : ("/" : String) ++ "?" = "/?" := by decide
  refine ⟨?_, ?_, ?_⟩
  · simp only [getRequestAPI, queryString_ordinary pairs inherited hkeys hexact hown hinh,
      jsAdd_str, queryPairs_eq_intercalate, String.append_assoc, hsl]
  · simp only [getRequestAPI,
      queryString_ordinary [] inherited (by simp) (by simp) (by simp) hinh,
      jsAdd_str, queryPairs, String.append_assoc, String.append_empty, hs]
  · simp only [getRequestAPI, queryString, jsAdd_str, String.append_assoc, hs]

/-- Witness of C18 (amended): the request
`getRequestAPI("ISteamUser", "v2", "GetPlayerSummaries", {key: "abc", steamid: 42})`
asks for `.../ISteamUser/GetPlayerSummaries/v2/?key=abc&steamid=42`. -/
theorem request_url_witness :
    (getRequestAPI (.str "ISteamUser") (.str "v2") (.str "GetPlayerSummaries")
        (some (ordinaryOptions sampleOptions []))
      = .ok (.str ("http://api.steampowered.com/" ++ "ISteamUser" ++ "/" ++ "GetPlayerSummaries"
          ++ "/" ++ "v2" ++ "/?"
          ++ "&".intercalate (sampleOptions.map fun kv => kv.1 ++ "=" ++ kv.2.written)))
    ∧ getRequestAPI (.str "ISteamUser") (.str "v2") (.str "GetPlayerSummaries")
        (some (ordinaryOptions [] []))
      = .ok (.str ("http://api.steampowered.com/" ++ "ISteamUser" ++ "/" ++ "GetPlayerSummaries"
          ++ "/" ++ "v2" ++ "/?"))
    ∧ getRequestAPI (.str "ISteamUser") (.str "v2") (.str "GetPlayerSummaries") none
      = .ok (.str ("http://api.steampowered.com/" ++ "ISteamUser" ++ "/" ++ "GetPlayerSummaries"
          ++ "/" ++ "v2" ++ "/?")))
    ∧ "http://api.steampowered.com/" ++ "ISteamUser" ++ "/" ++ "GetPlayerSummaries"
          ++ "/" ++ "v2" ++ "/?"
          ++ "&".intercalate (sampleOptions.map fun kv => kv.1 ++ "=" ++ kv.2.written)
        = "http://api.steampowered.com/ISteamUser/GetPlayerSummaries/v2/?key=abc&steamid=42" :=
  ⟨request_url "ISteamUser" "v2" "GetPlayerSummaries" sampleOptions [] (by decide) (by decide)
    (by decide) rfl, by decide⟩

end SteamBot
